import Mathlib

/-!
# pcapdaemon: startup validation and upload request construction

A shallow embedding of `validateOptions` and the part of `main` that follows it
(`src/main.go`), and of the request construction of `postBufferCloudshark` and
`postS3` (`src/postdata.go`).

Conventions of the embedding.

* A Go pointer field (`*string`, `*bool`, `*int`) is an `Option`: `none` is the
  nil pointer, `some v` a pointer to a cell holding `v`.  A store `*p = v`
  through a nil pointer is a runtime panic (`Outcome.nilDeref`).
* `validateOptions(c tomlConfig)` receives its argument by value.  The
  declaration of `tomlConfig` is not among the sources; its sections are taken
  to be struct values, so assignments to plain fields of `c` change the
  callee's copy only, while cells behind pointer fields are shared with the
  caller (`sharePointees`).
* `os.Exit(1)` after `log.Printf(msg)` and `log.Fatal(msg)` both end the process
  with status 1 after logging `msg`: `Outcome.exit 1 msg`.
* Go `int`, `int64` and `time.Duration` values are `Int`; the code only compares
  them with 0 and assigns constants, so no overflow is involved.
* Go maps keyed by strings are association lists (`GoMap`) read through
  `GoMap.find?` and `GoMap.get`.
-/

namespace Pcapdaemon

/-! ## Process outcomes -/

/-- The ways a piece of startup code can end: the process exits with a status
after logging a line, the runtime panics on a nil pointer dereference, or the
code runs to its end with a value. -/
inductive Outcome (α : Type) where
  | exit (status : Nat) (logged : String)
  | nilDeref
  | ok (val : α)
  deriving DecidableEq, Repr

/-- Sequencing of statements: a terminated process runs nothing more. -/
def Outcome.bind {α β : Type} (x : Outcome α) (f : α → Outcome β) : Outcome β :=
  match x with
  | .exit s m => .exit s m
  | .nilDeref => .nilDeref
  | .ok a => f a

/-- Go `log.Fatal(msg)`: log the message, then `os.Exit(1)`. -/
def logFatal {α : Type} (msg : String) : Outcome α := .exit 1 msg

/-- Go `*p = v`: a panic when `p` is nil, otherwise the cell now holds `v`. -/
def storeThrough {α : Type} (p : Option α) (v : α) : Outcome (Option α) :=
  match p with
  | none => .nilDeref
  | some _ => .ok (some v)

/-! ## Go maps with string keys -/

/-- A Go `map[string]β` as an association list with distinct keys. -/
abbrev GoMap (β : Type) := List (String × β)

/-- The comma-ok read `v, ok := m[k]`. -/
def GoMap.find? {β : Type} : GoMap β → String → Option β
  | [], _ => none
  | (k, v) :: rest, key => if k = key then some v else GoMap.find? rest key

/-- The assignment `m[k] = v`. -/
def GoMap.set {β : Type} : GoMap β → String → β → GoMap β
  | [], key, val => [(key, val)]
  | (k, v) :: rest, key, val =>
    if k = key then (k, val) :: rest else (k, v) :: GoMap.set rest key val

/-- The plain read `m[k]` of a map of slices: the nil slice for a missing key. -/
def GoMap.get (m : GoMap (List String)) (key : String) : List String :=
  (GoMap.find? m key).getD []

/-! ## Configuration model (fields as used by `validateOptions` and `main`) -/

/-- Modelled from the spec: the declaration of this section type is not among
the sources. Section `c.Aws` (ObjectStore), with the fields `validateOptions`
reads; those it compares with nil are pointers. -/
structure s3Section where
  Upload : Bool := false
  Bucket : Option String := none
  Region : Option String := none
  Endpoint : Option String := none
  ACL : Option String := none
  Encryption : Option Bool := none
  deriving DecidableEq, Repr

/-- Modelled from the spec: the declaration of this section type is not among
the sources. Section `c.AwsSqs` (QueueSQS), the queue-poll transport; the
fields compared with nil are pointers. -/
structure sqsSection where
  Listen : Bool := false
  Region : Option String := none
  URL : Option String := none
  Waitseconds : Option Int := none
  Chunksize : Option Int := none
  deriving DecidableEq, Repr

/-- Modelled from the spec: the declaration of this section type is not among
the sources. Section `c.K` (QueueKafka). -/
structure kafkaSection where
  Listen : Bool := false
  Server : List String := []
  Topic : String := ""
  deriving DecidableEq, Repr

/-- Modelled from the spec: the declaration of this section type is not among
the sources. Section `c.R` (QueuePubSub), the Redis transport. -/
structure redisSection where
  Listen : Bool := false
  Host : String := ""
  Port : Int := 0
  Channel : String := ""
  Auth : String := ""
  deriving DecidableEq, Repr

/-- Modelled from the spec: the declaration of this section type is not among
the sources. Section `c.Cs` (ReviewService), the Cloudshark upload. -/
structure cloudsharkSection where
  Upload : Bool := false
  Host : String := ""
  Port : Int := 0
  Token : String := ""
  Scheme : String := ""
  Timeout : Int := 0
  deriving DecidableEq, Repr

/-- Modelled from the spec: the declaration of this section type is not among
the sources. Section `c.Gen` (General): capture bounds and local writing. The
three time fields hold the raw numeric values the code assigns. -/
structure generalSection where
  Maxpackets : Int := 0
  Snap : Int := 0
  Deftimeout : Int := 0
  Maxtimeout : Int := 0
  Maxduration : Int := 0
  Maxbytes : Int := 0
  Writelocal : Bool := false
  Localdir : String := ""
  deriving DecidableEq, Repr

/-- Modelled from the spec: the declaration of this section type is not among
the sources. Section `c.Log` (Logging). -/
structure logSection where
  Priority : Int := 0
  Tag : String := ""
  deriving DecidableEq, Repr

/-- Modelled from the spec: the declaration of this type is not among the
sources. One element of `c.Ifmap` (an InterfaceDef): name and aliases. -/
structure interfaceDef where
  Name : String
  Alias : List String := []
  deriving DecidableEq, Repr

/-- Modelled from the spec: the declaration of `tomlConfig` is not among the
sources. The configuration tree, one struct-valued field per section: `main`
reads and assigns fields of the sections of the zero-valued package variable
`config` when no configuration file is given, which a nil section pointer
would not allow. -/
structure tomlConfig where
  Aws : s3Section := {}
  AwsSqs : sqsSection := {}
  K : kafkaSection := {}
  R : redisSection := {}
  Cs : cloudsharkSection := {}
  Gen : generalSection := {}
  Log : logSection := {}
  Ifmap : List interfaceDef := []
  deriving DecidableEq, Repr

/-- The fields of `pcap.Interface` the daemon reads. -/
structure pcapInterface where
  Name : String
  Description : String := ""
  deriving DecidableEq, Repr

/-- The value stored in the package variable `awsconfig`. -/
structure awsConfig where
  Region : Option String
  Endpoint : Option String
  S3ForcePathStyle : Option Bool
  LogLevel : Option Nat
  deriving DecidableEq, Repr

/-- What `validateOptions` reads from the host: the package variable `ifmap`
filled by `updateInterfaceMap`, and whether `os.Stat` of a path reports a
not-exist error. -/
structure Host where
  ifmap : GoMap pcapInterface
  statNotExist : String → Bool

/-- The package variables `validateOptions` writes. -/
structure Globals where
  almap : GoMap (List String) := []
  awsconfig : Option awsConfig := none
  deriving DecidableEq, Repr

/-- The state threaded through `validateOptions`: its by-value parameter `c`,
the package variables, and the lines written to standard output and the log. -/
structure VState where
  c : tomlConfig
  almap : GoMap (List String)
  awsconfig : Option awsConfig
  printed : List String
  logged : List String
  deriving DecidableEq, Repr

/-- Go `time.Second` as a `time.Duration` (nanoseconds). -/
def timeSecond : Int := 1000000000

/-! ## `validateOptions` (src/main.go, lines 55-214) -/

/-- Message of the destination existence check (line 58). -/
def destinationMsg : String :=
  "Error.  You must enable at least one of the following: Cloudshark, S3 or Writelocal\n"

/-- Message of the listener existence check (line 63). -/
def listenerMsg : String :=
  "Error.  You must enable at least one listener: Kafka, Redis or Amazon SQS\n"

/-- Lines 57-60. -/
def checkDestination (c : tomlConfig) : Outcome Unit :=
  if !c.Aws.Upload && !c.Cs.Upload && !c.Gen.Writelocal then .exit 1 destinationMsg
  else .ok ()

/-- Lines 62-65. -/
def checkListener (c : tomlConfig) : Outcome Unit :=
  if !c.AwsSqs.Listen && !c.R.Listen && !c.K.Listen then .exit 1 listenerMsg
  else .ok ()

/-- The two existence checks, lines 57-65. -/
def existenceChecks (c : tomlConfig) : Outcome Unit :=
  (checkDestination c).bind fun _ => checkListener c

/-- Lines 73-76: default the ACL through its pointer. -/
def s3DefaultACL (a : s3Section) : Outcome s3Section :=
  if a.ACL = none then
    (storeThrough a.ACL "private").bind fun p => .ok { a with ACL := p }
  else .ok a

/-- Lines 78-81: default the encryption flag through its pointer. -/
def s3DefaultEncryption (a : s3Section) : Outcome s3Section :=
  if a.Encryption = none then
    (storeThrough a.Encryption false).bind fun p => .ok { a with Encryption := p }
  else .ok a

/-- Lines 67-94: the object-store block. -/
def s3Block (s : VState) : Outcome VState :=
  if s.c.Aws.Upload then
    if s.c.Aws.Bucket = none then logFatal "You must supply a default bucket to use S3 "
    else
      (s3DefaultACL s.c.Aws).bind fun a1 =>
      (s3DefaultEncryption a1).bind fun a2 =>
      .ok { s with
        c := { s.c with Aws := a2 }
        awsconfig := some
          { Region := a2.Region, Endpoint := a2.Endpoint,
            S3ForcePathStyle := some true, LogLevel := some 1 } }
  else .ok s

/-- Lines 105-107: `*c.AwsSqs.Waitseconds = 20` when the pointer is nil. -/
def sqsDefaultWait (q : sqsSection) : Outcome sqsSection :=
  if q.Waitseconds = none then
    (storeThrough q.Waitseconds 20).bind fun p => .ok { q with Waitseconds := p }
  else .ok q

/-- Lines 109-111: `*c.AwsSqs.Waitseconds = 10` when `Chunksize` is nil. -/
def sqsDefaultChunk (q : sqsSection) : Outcome sqsSection :=
  if q.Chunksize = none then
    (storeThrough q.Waitseconds 10).bind fun p => .ok { q with Waitseconds := p }
  else .ok q

/-- Lines 96-113: the queue-poll block. -/
def sqsBlock (s : VState) : Outcome VState :=
  if s.c.AwsSqs.Listen then
    if s.c.AwsSqs.Region = none then logFatal "You must supply a Region to use SQS "
    else if s.c.AwsSqs.URL = none then logFatal "You must supply a Queue URL to use SQS "
    else
      (sqsDefaultWait s.c.AwsSqs).bind fun q1 =>
      (sqsDefaultChunk q1).bind fun q2 =>
      .ok { s with c := { s.c with AwsSqs := q2 } }
  else .ok s

/-- Lines 115-123: the Kafka block. -/
def kafkaBlock (s : VState) : Outcome VState :=
  if s.c.K.Listen then
    if s.c.K.Server.length < 1 then logFatal "You must supply at least 1 Kafka node"
    else if s.c.K.Topic = "" then logFatal "You must supply a Kafka topic to subscribe to"
    else .ok s
  else .ok s

/-- Lines 125-136: the Redis block. -/
def redisBlock (s : VState) : Outcome VState :=
  if s.c.R.Listen then
    if s.c.R.Host = "" then logFatal "You must supply a redis host"
    else if s.c.R.Channel = "" then logFatal "You must supply a redis channel to subscribe to"
    else if s.c.R.Port = 0 then
      .ok { s with c := { s.c with R := { s.c.R with Port := 6379 } } }
    else .ok s
  else .ok s

/-- Lines 146-151: scheme and port defaults of the review-service section. -/
def csDefaults (cs : cloudsharkSection) : cloudsharkSection :=
  let cs1 := if cs.Scheme = "" then { cs with Scheme := "https" } else cs
  if cs1.Port = 0 then { cs1 with Port := 443 } else cs1

/-- Lines 138-155: the review-service block. -/
def csBlock (s : VState) : Outcome VState :=
  if s.c.Cs.Upload then
    if s.c.Cs.Host = "" then logFatal "If using Cloudshark, you must supply a host"
    else if s.c.Cs.Token = "" then logFatal "If using Cloudshark, you must supply an API token"
    else .ok { s with c := { s.c with Cs := csDefaults s.c.Cs } }
  else
    .ok { s with
      printed := s.printed ++ ["No cloudshark settings"]
      logged := s.logged ++ ["No cloudshark settings"] }

/-- Lines 158-163: packet count and snap length defaults. -/
def genDefaultsA (g : generalSection) : generalSection :=
  let g1 := if g.Maxpackets = 0 then { g with Maxpackets := 10000 } else g
  if g1.Snap = 0 then { g1 with Snap := 512 } else g1

/-- Lines 171-186: timeout, duration and byte defaults. -/
def genDefaultsB (g : generalSection) : generalSection :=
  let g1 := if g.Deftimeout = 0 then { g with Deftimeout := 60 } else g
  let g2 := if g1.Maxtimeout = 0 then { g1 with Maxtimeout := 3600 * timeSecond } else g1
  let g3 := if g2.Maxduration = 0 then { g2 with Maxduration := 3600 * timeSecond } else g2
  if g3.Maxbytes = 0 then { g3 with Maxbytes := 100000000 } else g3

/-- Lines 157-186: the general block. -/
def genBlock (h : Host) (s : VState) : Outcome VState :=
  let g1 := genDefaultsA s.c.Gen
  if g1.Writelocal && h.statNotExist g1.Localdir then
    logFatal ("localdir: " ++ g1.Localdir ++ " does not exist")
  else .ok { s with c := { s.c with Gen := genDefaultsB g1 } }

/-- Lines 199-201: `almap[av] = append(almap[av], v.Name)` for each alias. -/
def addAliases (name : String) : List String → GoMap (List String) → GoMap (List String)
  | [], m => m
  | av :: rest, m => addAliases name rest (GoMap.set m av (GoMap.get m av ++ [name]))

/-- Lines 188-203: the loop over `c.Ifmap`. -/
def ifLoop (h : Host) : List interfaceDef → VState → Outcome VState
  | [], s => .ok s
  | v :: rest, s =>
    if v.Name = "" then logFatal "Interface definition missing name property"
    else if (GoMap.find? h.ifmap v.Name).isNone then
      logFatal ("Interface " ++ v.Name ++ " does not exist on host")
    else if v.Alias.length = 0 then
      ifLoop h rest { s with
        printed := s.printed ++ ["Warning:  Interface [" ++ v.Name ++ "] has no aliases"]
        logged := s.logged ++ ["Warning:  Interface [" ++ v.Name ++ "] has no aliases"] }
    else
      ifLoop h rest { s with almap := addAliases v.Name v.Alias s.almap }

/-- Lines 205-212: syslog defaults. -/
def logDefaults (l : logSection) : logSection :=
  let l1 := if l.Priority = 0 then { l with Priority := 85 } else l
  if l1.Tag = "" then { l1 with Tag := "pcapdaemon" } else l1

/-- Lines 205-212 as a block. -/
def logBlock (s : VState) : Outcome VState :=
  .ok { s with c := { s.c with Log := logDefaults s.c.Log } }

/-- The blocks after the existence checks, lines 67-212, in source order. -/
def sections (h : Host) (s : VState) : Outcome VState :=
  (s3Block s).bind fun s1 =>
  (sqsBlock s1).bind fun s2 =>
  (kafkaBlock s2).bind fun s3 =>
  (redisBlock s3).bind fun s4 =>
  (csBlock s4).bind fun s5 =>
  (genBlock h s5).bind fun s6 =>
  (ifLoop h s6.c.Ifmap s6).bind fun s7 =>
  logBlock s7

/-- The function `validateOptions(c tomlConfig)`: `c` is the by-value parameter,
`g` the package variables at the call. -/
def validateOptions (h : Host) (c : tomlConfig) (g : Globals) : Outcome VState :=
  (existenceChecks c).bind fun _ =>
  sections h { c := c, almap := g.almap, awsconfig := g.awsconfig, printed := [], logged := [] }

/-! ## `main` after the command-line overrides (src/main.go, lines 299-328) -/

/-- The caller's configuration after `validateOptions(config)` has run on a copy
`final` of it: plain fields are the caller's own, cells behind pointer fields
are shared with the copy. -/
def sharePointees (config final : tomlConfig) : tomlConfig :=
  { config with
    Aws := { config.Aws with
      Bucket := final.Aws.Bucket, Region := final.Aws.Region,
      Endpoint := final.Aws.Endpoint, ACL := final.Aws.ACL,
      Encryption := final.Aws.Encryption }
    AwsSqs := { config.AwsSqs with
      Region := final.AwsSqs.Region, URL := final.AwsSqs.URL,
      Waitseconds := final.AwsSqs.Waitseconds, Chunksize := final.AwsSqs.Chunksize } }

/-- A listener goroutine started by `main`, with the arguments it is given. -/
inductive Worker where
  | redis (host : String) (port : Int) (channel : String) (auth : String)
  | kafka (servers : List String) (topic : String)
  | sqs
  deriving DecidableEq, Repr

/-- Lines 306-328: the goroutines `main` starts, in program order, reading the
package variable `config`. -/
def startListeners (config : tomlConfig) : List Worker :=
  (if config.R.Listen then
      [Worker.redis config.R.Host config.R.Port config.R.Channel config.R.Auth]
    else []) ++
  (if config.K.Listen then [Worker.kafka config.K.Server config.K.Topic] else []) ++
  (if config.AwsSqs.Listen then [Worker.sqs] else [])

/-- What `main` has set up once the listeners are started. -/
structure Started where
  config : tomlConfig
  almap : GoMap (List String)
  awsconfig : Option awsConfig
  workers : List Worker
  deriving DecidableEq, Repr

/-- Lines 299-328 of `main`: `config` is the package variable after the flag
overrides; `validateOptions(config)` runs on a copy, then the listeners are
started from `config` itself. -/
def main (h : Host) (config : tomlConfig) (g : Globals) : Outcome Started :=
  (validateOptions h config g).bind fun s =>
  .ok { config := sharePointees config s.c, almap := s.almap, awsconfig := s.awsconfig,
        workers := startListeners (sharePointees config s.c) }

/-! ## Upload request construction (src/postdata.go) -/

/-- Go `strconv.Itoa`: decimal digits, with a leading minus sign when negative. -/
def itoa (n : Int) : String :=
  if n < 0 then "-" ++ Nat.repr n.natAbs else Nat.repr n.natAbs

/-- The arguments `postBufferCloudshark` passes to `newBufferUploadRequest`. -/
structure UploadCall where
  uri : String
  params : GoMap String
  paramName : String
  buf : List (Fin 256)
  filename : String
  deriving DecidableEq, Repr

/-- Lines 58-70 of `postBufferCloudshark`: the target URL and form fields. -/
def postBufferCloudshark (scheme host : String) (port : Int) (token : String)
    (buf : List (Fin 256)) (filename tags : String) : UploadCall :=
  let extraParams : GoMap String := [("additional_tags", tags)]
  let url :=
    if port ≠ 80 ∧ port ≠ 443 then
      scheme ++ "://" ++ host ++ ":" ++ itoa port ++ "/api/v1/" ++ token ++ "/upload"
    else
      scheme ++ "://" ++ host ++ "/api/v1/" ++ token ++ "/upload"
  { uri := url, params := extraParams, paramName := "file", buf := buf, filename := filename }

/-- The fields of `s3.PutObjectInput` that `postS3` fills; pointer-typed fields
are options, `none` when left unset. -/
structure PutObjectInput where
  Bucket : Option String
  Key : Option String
  ACL : Option String
  Body : List (Fin 256)
  ContentLength : Option Int
  ContentType : Option String
  Metadata : GoMap (Option String)
  ServerSideEncryption : Option String
  deriving DecidableEq, Repr

/-- Lines 107-126 of `postS3`: the parameters of the PUT request.
`detectContentType` stands for `http.DetectContentType`. -/
def postS3Params (detectContentType : List (Fin 256) → String) (bucket : String)
    (buf : List (Fin 256)) (filename tags folder acl : String) (enc : Bool) :
    PutObjectInput :=
  let fileType := detectContentType buf
  let path := "/" ++ folder ++ "/" ++ filename
  let params : PutObjectInput :=
    { Bucket := some bucket, Key := some path, ACL := some acl, Body := buf,
      ContentLength := some (Int.ofNat buf.length), ContentType := some fileType,
      Metadata := [("tags", some tags)], ServerSideEncryption := none }
  if enc then { params with ServerSideEncryption := some "AES256" } else params

/-- Lines 97-128 of `postS3`: the request handed to `PutObject`, or `none` when
`session.NewSession` fails (`newSession config = false`) and the function
returns before building one. -/
def postS3 (newSession : awsConfig → Bool) (detectContentType : List (Fin 256) → String)
    (config : awsConfig) (bucket : String) (buf : List (Fin 256))
    (filename tags folder acl : String) (enc : Bool) : Option PutObjectInput :=
  if newSession config then
    some (postS3Params detectContentType bucket buf filename tags folder acl enc)
  else none

/-! ## Predicates used in the statements -/

/-- No delivery destination is enabled. -/
def noDestination (c : tomlConfig) : Prop :=
  c.Aws.Upload = false ∧ c.Cs.Upload = false ∧ c.Gen.Writelocal = false

/-- No trigger transport is enabled. -/
def noListener (c : tomlConfig) : Prop :=
  c.AwsSqs.Listen = false ∧ c.R.Listen = false ∧ c.K.Listen = false

instance (c : tomlConfig) : Decidable (noDestination c) := by
  unfold noDestination; infer_instance

instance (c : tomlConfig) : Decidable (noListener c) := by
  unfold noListener; infer_instance

/-- Two configurations agree everywhere except in the non-enable fields of the
sections (object store, queue-poll, Kafka, Pub/Sub, review service) that are
disabled in both. -/
def agreeOutsideDisabled (c1 c2 : tomlConfig) : Prop :=
  c1.Aws.Upload = c2.Aws.Upload ∧ (c1.Aws.Upload = true → c1.Aws = c2.Aws) ∧
  c1.AwsSqs.Listen = c2.AwsSqs.Listen ∧ (c1.AwsSqs.Listen = true → c1.AwsSqs = c2.AwsSqs) ∧
  c1.K.Listen = c2.K.Listen ∧ (c1.K.Listen = true → c1.K = c2.K) ∧
  c1.R.Listen = c2.R.Listen ∧ (c1.R.Listen = true → c1.R = c2.R) ∧
  c1.Cs.Upload = c2.Cs.Upload ∧ (c1.Cs.Upload = true → c1.Cs = c2.Cs) ∧
  c1.Gen = c2.Gen ∧ c1.Log = c2.Log ∧ c1.Ifmap = c2.Ifmap

instance (c1 c2 : tomlConfig) : Decidable (agreeOutsideDisabled c1 c2) := by
  unfold agreeOutsideDisabled; infer_instance

/-- What a completed run of `validateOptions` leaves behind outside its own
parameter: the package variables and the lines written. -/
structure Effects where
  almap : GoMap (List String)
  awsconfig : Option awsConfig
  printed : List String
  logged : List String
  deriving DecidableEq, Repr

/-- The outcome of `validateOptions` as seen from outside the function: the
same ending, with the callee's copy of the configuration dropped. -/
def observe (o : Outcome VState) : Outcome Effects :=
  match o with
  | .exit st m => .exit st m
  | .nilDeref => .nilDeref
  | .ok s => .ok { almap := s.almap, awsconfig := s.awsconfig,
                   printed := s.printed, logged := s.logged }

/-- Two intermediate states of `validateOptions` with the same package
variables and output, whose configurations agree outside disabled sections. -/
def stateAgree (s1 s2 : VState) : Prop :=
  agreeOutsideDisabled s1.c s2.c ∧ s1.almap = s2.almap ∧ s1.awsconfig = s2.awsconfig ∧
  s1.printed = s2.printed ∧ s1.logged = s2.logged

/-- Two outcomes end the same way, with agreeing states on completion. -/
def outcomeAgree (o1 o2 : Outcome VState) : Prop :=
  match o1, o2 with
  | .exit a m, .exit b n => a = b ∧ m = n
  | .nilDeref, .nilDeref => True
  | .ok s1, .ok s2 => stateAgree s1 s2
  | _, _ => False

/-- The target URL as the specification words it: the port segment is left out
exactly when the port is the implicit default of the scheme (80 for http, 443
for https). -/
def specTargetURL (scheme host : String) (port : Int) (token : String) : String :=
  if (scheme = "http" ∧ port = 80) ∨ (scheme = "https" ∧ port = 443) then
    scheme ++ "://" ++ host ++ "/api/v1/" ++ token ++ "/upload"
  else
    scheme ++ "://" ++ host ++ ":" ++ itoa port ++ "/api/v1/" ++ token ++ "/upload"

/-- A host with two capture devices on which every path exists. -/
def sampleHost : Host :=
  { ifmap := [("eth0", { Name := "eth0" }), ("eth1", { Name := "eth1" })],
    statNotExist := fun _ => false }

/-- Local writing and the Pub/Sub transport enabled, object store disabled
and left empty. -/
def sampleConfigA : tomlConfig :=
  { Gen := { Writelocal := true, Localdir := "/tmp/caps" },
    R := { Listen := true, Host := "redis.internal", Channel := "capture" } }

/-- As `sampleConfigA`, with fields filled in inside disabled sections. -/
def sampleConfigB : tomlConfig :=
  { sampleConfigA with
    Aws := { Upload := false, Bucket := some "captures", ACL := some "private" }
    K := { Listen := false, Server := ["kafka:9092"] }
    AwsSqs := { Listen := false, Waitseconds := some 5 } }

/-- The names of the InterfaceDefs that list alias `a`, in definition order, one
entry per InterfaceDef (the wording of the specification). -/
def definersOf (a : String) (defs : List interfaceDef) : List String :=
  (defs.filter fun d => decide (a ∈ d.Alias)).map fun d => d.Name

/-- The names of the InterfaceDefs in definition order, each repeated once for
every occurrence of `a` in its alias list. -/
def occurrencesOf (a : String) : List interfaceDef → List String
  | [] => []
  | d :: rest => List.replicate (d.Alias.count a) d.Name ++ occurrencesOf a rest

/-- The name of an InterfaceDef is non-empty and present in the registry. -/
def validName (h : Host) (d : interfaceDef) : Prop :=
  d.Name ≠ "" ∧ (GoMap.find? h.ifmap d.Name).isSome = true

/-- One device with the alias `lan` listed twice, a second device sharing it. -/
def sampleConfigAliases : tomlConfig :=
  { sampleConfigA with
    Ifmap := [{ Name := "eth0", Alias := ["lan", "lan"] },
              { Name := "eth1", Alias := ["lan", "wan"] }] }

/-- Object store enabled with a bucket but no ACL, Kafka enabled with no
broker and no topic. -/
def configBucketNoACL : tomlConfig :=
  { Aws := { Upload := true, Bucket := some "captures" },
    K := { Listen := true } }

/-- Object store enabled with no bucket, Pub/Sub enabled and complete. -/
def configNoBucket : tomlConfig :=
  { Aws := { Upload := true },
    R := { Listen := true, Host := "redis.internal", Channel := "capture" } }

/-- Object store enabled with bucket and ACL but no encryption flag. -/
def configNoEncryption : tomlConfig :=
  { Aws := { Upload := true, Bucket := some "captures", ACL := some "public-read" },
    R := { Listen := true, Host := "redis.internal", Channel := "capture" } }

/-- Object store enabled with bucket, encryption flag, and no ACL. -/
def configNoACL : tomlConfig :=
  { Aws := { Upload := true, Bucket := some "captures", Encryption := some true },
    R := { Listen := true, Host := "redis.internal", Channel := "capture" } }

/-- Queue-poll transport enabled with region, queue URL and the given
wait-seconds and chunk-size; captures written locally. -/
def configSqs (wait chunk : Option Int) : tomlConfig :=
  { Gen := { Writelocal := true, Localdir := "/tmp/caps" },
    AwsSqs := { Listen := true, Region := some "eu-west-1",
                URL := some "https://sqs.example/queue",
                Waitseconds := wait, Chunksize := chunk } }

/-- The message of the first required-field check that fails, in the order of
the blocks of `validateOptions`, over enabled sections only; `none` when every
enabled section has its required fields. -/
def firstMissingField (c : tomlConfig) : Option String :=
  if c.Aws.Upload = true ∧ c.Aws.Bucket = none then
    some "You must supply a default bucket to use S3 "
  else if c.AwsSqs.Listen = true ∧ c.AwsSqs.Region = none then
    some "You must supply a Region to use SQS "
  else if c.AwsSqs.Listen = true ∧ c.AwsSqs.URL = none then
    some "You must supply a Queue URL to use SQS "
  else if c.K.Listen = true ∧ c.K.Server = [] then
    some "You must supply at least 1 Kafka node"
  else if c.K.Listen = true ∧ c.K.Topic = "" then
    some "You must supply a Kafka topic to subscribe to"
  else if c.R.Listen = true ∧ c.R.Host = "" then
    some "You must supply a redis host"
  else if c.R.Listen = true ∧ c.R.Channel = "" then
    some "You must supply a redis channel to subscribe to"
  else if c.Cs.Upload = true ∧ c.Cs.Host = "" then
    some "If using Cloudshark, you must supply a host"
  else if c.Cs.Upload = true ∧ c.Cs.Token = "" then
    some "If using Cloudshark, you must supply an API token"
  else none

/-- The optional pointer fields through which `validateOptions` stores a
default are non-nil in every enabled section. -/
def optionalPointersPresent (c : tomlConfig) : Prop :=
  (c.Aws.Upload = true → c.Aws.ACL ≠ none ∧ c.Aws.Encryption ≠ none) ∧
  (c.AwsSqs.Listen = true → c.AwsSqs.Waitseconds ≠ none)

instance (c : tomlConfig) : Decidable (optionalPointersPresent c) := by
  unfold optionalPointersPresent; infer_instance

/-- Object store with bucket, ACL and encryption flag present, Kafka enabled
with a broker but no topic. -/
def configKafkaNoTopic : tomlConfig :=
  { Aws := { Upload := true, Bucket := some "captures", ACL := some "private",
             Encryption := some false },
    K := { Listen := true, Server := ["kafka:9092"] } }

/-! ## Sequencing lemmas -/

theorem bind_ok_eq {α β : Type} (a : α) (f : α → Outcome β) :
    (Outcome.ok a).bind f = f a := rfl

theorem bind_exit_eq {α β : Type} (st : Nat) (m : String) (f : α → Outcome β) :
    (Outcome.exit st m : Outcome α).bind f = .exit st m := rfl

theorem bind_nilDeref_eq {α β : Type} (f : α → Outcome β) :
    (Outcome.nilDeref : Outcome α).bind f = .nilDeref := rfl

theorem bind_eq_exit {α β : Type} {x : Outcome α} {f : α → Outcome β} {st : Nat}
    {m : String} (h : x.bind f = .exit st m) :
    x = .exit st m ∨ ∃ a, x = .ok a ∧ f a = .exit st m := by
  cases x with
  | exit s1 m1 => left; simpa [Outcome.bind] using h
  | nilDeref => simp [Outcome.bind] at h
  | ok a => right; exact ⟨a, rfl, h⟩

/-! ## The pointer defaults in closed form -/

theorem s3DefaultACL_eq (a : s3Section) :
    s3DefaultACL a = if a.ACL = none then .nilDeref else .ok a := by
  unfold s3DefaultACL
  split_ifs with h
  · simp [h, storeThrough, Outcome.bind]
  · rfl

theorem s3DefaultEncryption_eq (a : s3Section) :
    s3DefaultEncryption a = if a.Encryption = none then .nilDeref else .ok a := by
  unfold s3DefaultEncryption
  split_ifs with h
  · simp [h, storeThrough, Outcome.bind]
  · rfl

theorem sqsDefaultWait_eq (q : sqsSection) :
    sqsDefaultWait q = if q.Waitseconds = none then .nilDeref else .ok q := by
  unfold sqsDefaultWait
  split_ifs with h
  · simp [h, storeThrough, Outcome.bind]
  · rfl

theorem sqsDefaultChunk_eq (q : sqsSection) :
    sqsDefaultChunk q =
      if q.Chunksize = none then
        (if q.Waitseconds = none then .nilDeref else .ok { q with Waitseconds := some 10 })
      else .ok q := by
  unfold sqsDefaultChunk
  split_ifs with h1 h2
  · simp [h2, storeThrough, Outcome.bind]
  · cases hw : q.Waitseconds with
    | none => exact absurd hw h2
    | some w => simp [storeThrough, Outcome.bind]
  · rfl

/-! ## Messages logged by the section blocks -/

theorem s3Block_exit {s : VState} {st : Nat} {m : String} (h : s3Block s = .exit st m) :
    st = 1 ∧ m = "You must supply a default bucket to use S3 " := by
  unfold s3Block at h
  rw [s3DefaultACL_eq] at h
  split_ifs at h with h1 h2 h3
  · simpa [logFatal, eq_comm] using h
  · simp [Outcome.bind] at h
  · simp only [bind_ok_eq, s3DefaultEncryption_eq] at h
    split_ifs at h <;> simp [Outcome.bind] at h

theorem sqsBlock_exit {s : VState} {st : Nat} {m : String} (h : sqsBlock s = .exit st m) :
    st = 1 ∧ (m = "You must supply a Region to use SQS " ∨
      m = "You must supply a Queue URL to use SQS ") := by
  unfold sqsBlock at h
  rw [sqsDefaultWait_eq] at h
  split_ifs at h with h1 h2 h3 h4
  · simp only [logFatal, Outcome.exit.injEq] at h
    exact ⟨h.1.symm, Or.inl h.2.symm⟩
  · simp only [logFatal, Outcome.exit.injEq] at h
    exact ⟨h.1.symm, Or.inr h.2.symm⟩
  · simp [Outcome.bind] at h
  · simp only [bind_ok_eq, sqsDefaultChunk_eq] at h
    split_ifs at h <;> simp [Outcome.bind] at h

theorem kafkaBlock_exit {s : VState} {st : Nat} {m : String} (h : kafkaBlock s = .exit st m) :
    st = 1 ∧ (m = "You must supply at least 1 Kafka node" ∨
      m = "You must supply a Kafka topic to subscribe to") := by
  unfold kafkaBlock at h
  split_ifs at h with h1 h2 h3
  · simp only [logFatal, Outcome.exit.injEq] at h
    exact ⟨h.1.symm, Or.inl h.2.symm⟩
  · simp only [logFatal, Outcome.exit.injEq] at h
    exact ⟨h.1.symm, Or.inr h.2.symm⟩

theorem redisBlock_exit {s : VState} {st : Nat} {m : String} (h : redisBlock s = .exit st m) :
    st = 1 ∧ (m = "You must supply a redis host" ∨
      m = "You must supply a redis channel to subscribe to") := by
  unfold redisBlock at h
  split_ifs at h with h1 h2 h3
  · simp only [logFatal, Outcome.exit.injEq] at h
    exact ⟨h.1.symm, Or.inl h.2.symm⟩
  · simp only [logFatal, Outcome.exit.injEq] at h
    exact ⟨h.1.symm, Or.inr h.2.symm⟩

theorem csBlock_exit {s : VState} {st : Nat} {m : String} (h : csBlock s = .exit st m) :
    st = 1 ∧ (m = "If using Cloudshark, you must supply a host" ∨
      m = "If using Cloudshark, you must supply an API token") := by
  unfold csBlock at h
  split_ifs at h with h1 h2 h3
  · simp only [logFatal, Outcome.exit.injEq] at h
    exact ⟨h.1.symm, Or.inl h.2.symm⟩
  · simp only [logFatal, Outcome.exit.injEq] at h
    exact ⟨h.1.symm, Or.inr h.2.symm⟩

theorem genBlock_exit {h : Host} {s : VState} {st : Nat} {m : String}
    (hx : genBlock h s = .exit st m) :
    st = 1 ∧ ∃ d, m = "localdir: " ++ d ++ " does not exist" := by
  unfold genBlock at hx
  simp only at hx
  split_ifs at hx with h1
  simp only [logFatal, Outcome.exit.injEq] at hx
  exact ⟨hx.1.symm, _, hx.2.symm⟩

theorem ifLoop_exit {h : Host} {l : List interfaceDef} {s : VState} {st : Nat} {m : String}
    (hx : ifLoop h l s = .exit st m) :
    st = 1 ∧ (m = "Interface definition missing name property" ∨
      ∃ n, m = "Interface " ++ n ++ " does not exist on host") := by
  induction l generalizing s with
  | nil => simp [ifLoop] at hx
  | cons v rest ih =>
    unfold ifLoop at hx
    split_ifs at hx with h1 h2 h3
    · simp only [logFatal, Outcome.exit.injEq] at hx
      exact ⟨hx.1.symm, Or.inl hx.2.symm⟩
    · simp only [logFatal, Outcome.exit.injEq] at hx
      exact ⟨hx.1.symm, Or.inr ⟨_, hx.2.symm⟩⟩
    · exact ih hx
    · exact ih hx

/-- Every line with which a section block ends the process begins with a letter
other than `E`. -/
theorem sections_exit_head {h : Host} {s : VState} {st : Nat} {m : String}
    (hx : sections h s = .exit st m) : st = 1 ∧ m.data.head? ≠ some 'E' := by
  unfold sections at hx
  rcases bind_eq_exit hx with h1 | ⟨s1, -, hx⟩
  · obtain ⟨e, rfl⟩ := s3Block_exit h1; exact ⟨e, by decide⟩
  rcases bind_eq_exit hx with h1 | ⟨s2, -, hx⟩
  · obtain ⟨e, rfl | rfl⟩ := sqsBlock_exit h1 <;> exact ⟨e, by decide⟩
  rcases bind_eq_exit hx with h1 | ⟨s3, -, hx⟩
  · obtain ⟨e, rfl | rfl⟩ := kafkaBlock_exit h1 <;> exact ⟨e, by decide⟩
  rcases bind_eq_exit hx with h1 | ⟨s4, -, hx⟩
  · obtain ⟨e, rfl | rfl⟩ := redisBlock_exit h1 <;> exact ⟨e, by decide⟩
  rcases bind_eq_exit hx with h1 | ⟨s5, -, hx⟩
  · obtain ⟨e, rfl | rfl⟩ := csBlock_exit h1 <;> exact ⟨e, by decide⟩
  rcases bind_eq_exit hx with h1 | ⟨s6, -, hx⟩
  · obtain ⟨e, d, rfl⟩ := genBlock_exit h1
    refine ⟨e, ?_⟩
    have hd : ("localdir: " ++ d ++ " does not exist").data
        = 'l' :: ("ocaldir: ".data ++ d.data ++ " does not exist".data) := by
      simp only [String.data_append]; rfl
    rw [hd]; simp
  rcases bind_eq_exit hx with h1 | ⟨s7, -, hx⟩
  · obtain ⟨e, rfl | ⟨n, rfl⟩⟩ := ifLoop_exit h1
    · exact ⟨e, by decide⟩
    · refine ⟨e, ?_⟩
      have hd : ("Interface " ++ n ++ " does not exist on host").data
          = 'I' :: ("nterface ".data ++ n.data ++ " does not exist on host".data) := by
        simp only [String.data_append]; rfl
      rw [hd]; simp
  · simp [logBlock] at hx

/-- C1. `validateOptions` ends the process with status 1 at one of its two
existence checks exactly when no delivery destination is enabled or no trigger
transport is enabled; with a destination and a transport enabled both checks
are passed. -/
theorem validateOptions_existence_checks (h : Host) (c : tomlConfig) (g : Globals) :
    ((validateOptions h c g = .exit 1 destinationMsg ∨
        validateOptions h c g = .exit 1 listenerMsg) ↔ (noDestination c ∨ noListener c)) ∧
    ((∃ st msg, existenceChecks c = .exit st msg) ↔ (noDestination c ∨ noListener c)) ∧
    (existenceChecks c = .ok () ↔ (¬ noDestination c ∧ ¬ noListener c)) ∧
    (validateOptions h c g = .exit 1 destinationMsg ↔ noDestination c) ∧
    (validateOptions h c g = .exit 1 listenerMsg ↔ (¬ noDestination c ∧ noListener c)) := by
  have key : (noDestination c → existenceChecks c = .exit 1 destinationMsg) ∧
      (¬ noDestination c → noListener c → existenceChecks c = .exit 1 listenerMsg) ∧
      (¬ noDestination c → ¬ noListener c → existenceChecks c = .ok ()) := by
    unfold noDestination noListener existenceChecks checkDestination checkListener
    cases c.Aws.Upload <;> cases c.Cs.Upload <;> cases c.Gen.Writelocal <;>
      cases c.AwsSqs.Listen <;> cases c.R.Listen <;> cases c.K.Listen <;>
      simp [Outcome.bind]
  obtain ⟨k1, k2, k3⟩ := key
  have hne : destinationMsg ≠ listenerMsg := by decide
  have hsec : ∀ s msg, msg = destinationMsg ∨ msg = listenerMsg →
      sections h s ≠ .exit 1 msg := by
    intro s msg hm hx
    have := (sections_exit_head hx).2
    rcases hm with rfl | rfl <;> exact this (by decide)
  by_cases hd : noDestination c
  · have hv : validateOptions h c g = .exit 1 destinationMsg := by
      unfold validateOptions; rw [k1 hd]; rfl
    simp [hv, hd, k1 hd, hne]
  · by_cases hl : noListener c
    · have hv : validateOptions h c g = .exit 1 listenerMsg := by
        unfold validateOptions; rw [k2 hd hl]; rfl
      simp [hv, hd, hl, k2 hd hl, hne.symm]
    · have hv : validateOptions h c g = sections h
          { c := c, almap := g.almap, awsconfig := g.awsconfig, printed := [], logged := [] } := by
        unfold validateOptions; rw [k3 hd hl]; rfl
      simp [hv, hd, hl, k3 hd hl, hsec _ _ (Or.inl rfl), hsec _ _ (Or.inr rfl)]

/-! ## Disabled sections are not read -/

theorem outcomeAgree_refl_exit (st : Nat) (m : String) :
    outcomeAgree (.exit st m) (.exit st m) := ⟨rfl, rfl⟩

theorem outcomeAgree_bind {o1 o2 : Outcome VState} {f1 f2 : VState → Outcome VState}
    (ho : outcomeAgree o1 o2)
    (hf : ∀ s1 s2, stateAgree s1 s2 → outcomeAgree (f1 s1) (f2 s2)) :
    outcomeAgree (o1.bind f1) (o2.bind f2) := by
  cases o1 <;> cases o2 <;> simp_all [outcomeAgree, Outcome.bind]

theorem observe_eq_of_agree {o1 o2 : Outcome VState} (ho : outcomeAgree o1 o2) :
    observe o1 = observe o2 := by
  cases o1 <;> cases o2 <;> simp_all [outcomeAgree, observe, stateAgree]

theorem s3Block_agree {s1 s2 : VState} (hs : stateAgree s1 s2) :
    outcomeAgree (s3Block s1) (s3Block s2) := by
  obtain ⟨⟨a1, a2, b1, b2, k1, k2, r1, r2, c1, c2, g, l, i⟩, hm, ha, hp, hl⟩ := hs
  unfold s3Block
  rw [s3DefaultACL_eq, s3DefaultACL_eq, ← a1]
  by_cases hU : s1.c.Aws.Upload = true
  · have e := a2 hU
    rw [← e]
    simp only [hU, if_true]
    split_ifs with h1 h2
    · exact outcomeAgree_refl_exit _ _
    · simp [Outcome.bind, outcomeAgree]
    · simp only [bind_ok_eq, s3DefaultEncryption_eq]
      split_ifs with h3
      · simp [Outcome.bind, outcomeAgree]
      · simp only [bind_ok_eq, outcomeAgree, stateAgree, agreeOutsideDisabled]
        simp_all
  · simp only [hU]
    simp only [outcomeAgree, stateAgree, agreeOutsideDisabled]
    simp_all

theorem sqsBlock_agree {s1 s2 : VState} (hs : stateAgree s1 s2) :
    outcomeAgree (sqsBlock s1) (sqsBlock s2) := by
  obtain ⟨⟨a1, a2, b1, b2, k1, k2, r1, r2, c1, c2, g, l, i⟩, hm, ha, hp, hl⟩ := hs
  unfold sqsBlock
  rw [sqsDefaultWait_eq, sqsDefaultWait_eq, ← b1]
  by_cases hU : s1.c.AwsSqs.Listen = true
  · have e := b2 hU
    rw [← e]
    simp only [hU, if_true]
    split_ifs with h1 h2 h3
    · exact outcomeAgree_refl_exit _ _
    · exact outcomeAgree_refl_exit _ _
    · simp [Outcome.bind, outcomeAgree]
    · simp only [bind_ok_eq, sqsDefaultChunk_eq]
      split_ifs with h4
      · simp only [bind_ok_eq, outcomeAgree, stateAgree, agreeOutsideDisabled]
        simp_all
      · simp only [bind_ok_eq, outcomeAgree, stateAgree, agreeOutsideDisabled]
        simp_all
  · simp only [hU]
    simp only [outcomeAgree, stateAgree, agreeOutsideDisabled]
    simp_all

theorem kafkaBlock_agree {s1 s2 : VState} (hs : stateAgree s1 s2) :
    outcomeAgree (kafkaBlock s1) (kafkaBlock s2) := by
  have hs0 := hs
  obtain ⟨⟨a1, a2, b1, b2, k1, k2, r1, r2, c1, c2, g, l, i⟩, hm, ha, hp, hl⟩ := hs
  unfold kafkaBlock
  rw [← k1]
  by_cases hU : s1.c.K.Listen = true
  · have e := k2 hU
    rw [← e]
    simp only [hU, if_true]
    split_ifs with h1 h2
    · exact outcomeAgree_refl_exit _ _
    · exact outcomeAgree_refl_exit _ _
    · exact hs0
  · simp only [hU]
    exact hs0

theorem redisBlock_agree {s1 s2 : VState} (hs : stateAgree s1 s2) :
    outcomeAgree (redisBlock s1) (redisBlock s2) := by
  have hs0 := hs
  obtain ⟨⟨a1, a2, b1, b2, k1, k2, r1, r2, c1, c2, g, l, i⟩, hm, ha, hp, hl⟩ := hs
  unfold redisBlock
  rw [← r1]
  by_cases hU : s1.c.R.Listen = true
  · have e := r2 hU
    rw [← e]
    simp only [hU, if_true]
    split_ifs with h1 h2 h3
    · exact outcomeAgree_refl_exit _ _
    · exact outcomeAgree_refl_exit _ _
    · simp only [outcomeAgree, stateAgree, agreeOutsideDisabled]
      simp_all
    · exact hs0
  · simp only [hU]
    exact hs0

theorem csBlock_agree {s1 s2 : VState} (hs : stateAgree s1 s2) :
    outcomeAgree (csBlock s1) (csBlock s2) := by
  obtain ⟨⟨a1, a2, b1, b2, k1, k2, r1, r2, c1, c2, g, l, i⟩, hm, ha, hp, hl⟩ := hs
  unfold csBlock
  rw [← c1]
  by_cases hU : s1.c.Cs.Upload = true
  · have e := c2 hU
    rw [← e]
    simp only [hU, if_true]
    split_ifs with h1 h2
    · exact outcomeAgree_refl_exit _ _
    · exact outcomeAgree_refl_exit _ _
    · simp only [outcomeAgree, stateAgree, agreeOutsideDisabled]
      simp_all
  · simp only [hU]
    simp only [outcomeAgree, stateAgree, agreeOutsideDisabled]
    simp_all

theorem genBlock_agree (h : Host) {s1 s2 : VState} (hs : stateAgree s1 s2) :
    outcomeAgree (genBlock h s1) (genBlock h s2) := by
  obtain ⟨⟨a1, a2, b1, b2, k1, k2, r1, r2, c1, c2, g, l, i⟩, hm, ha, hp, hl⟩ := hs
  unfold genBlock
  simp only [← g]
  split_ifs with h1
  · exact outcomeAgree_refl_exit _ _
  · simp only [outcomeAgree, stateAgree, agreeOutsideDisabled]
    simp_all

theorem ifLoop_agree (h : Host) (l : List interfaceDef) {s1 s2 : VState}
    (hs : stateAgree s1 s2) : outcomeAgree (ifLoop h l s1) (ifLoop h l s2) := by
  induction l generalizing s1 s2 with
  | nil => exact hs
  | cons v rest ih =>
    obtain ⟨hc, hm, ha, hp, hl⟩ := hs
    unfold ifLoop
    split_ifs with h1 h2 h3
    · exact outcomeAgree_refl_exit _ _
    · exact outcomeAgree_refl_exit _ _
    · exact ih ⟨hc, hm, ha, by simp [hp], by simp [hl]⟩
    · exact ih ⟨hc, by simp [hm], ha, hp, hl⟩

theorem logBlock_agree {s1 s2 : VState} (hs : stateAgree s1 s2) :
    outcomeAgree (logBlock s1) (logBlock s2) := by
  obtain ⟨⟨a1, a2, b1, b2, k1, k2, r1, r2, c1, c2, g, l, i⟩, hm, ha, hp, hl⟩ := hs
  unfold logBlock
  simp only [outcomeAgree, stateAgree, agreeOutsideDisabled]
  simp_all

theorem sections_agree (h : Host) {s1 s2 : VState} (hs : stateAgree s1 s2) :
    outcomeAgree (sections h s1) (sections h s2) := by
  unfold sections
  refine outcomeAgree_bind (s3Block_agree hs) fun _ _ h1 => ?_
  refine outcomeAgree_bind (sqsBlock_agree h1) fun _ _ h2 => ?_
  refine outcomeAgree_bind (kafkaBlock_agree h2) fun _ _ h3 => ?_
  refine outcomeAgree_bind (redisBlock_agree h3) fun _ _ h4 => ?_
  refine outcomeAgree_bind (csBlock_agree h4) fun _ _ h5 => ?_
  refine outcomeAgree_bind (genBlock_agree h h5) fun t1 t2 h6 => ?_
  refine outcomeAgree_bind ?_ fun _ _ h7 => logBlock_agree h7
  have hi : t1.c.Ifmap = t2.c.Ifmap := h6.1.2.2.2.2.2.2.2.2.2.2.2.2
  rw [hi]
  exact ifLoop_agree h _ h6

theorem existenceChecks_agree {c1 c2 : tomlConfig} (hc : agreeOutsideDisabled c1 c2) :
    existenceChecks c1 = existenceChecks c2 := by
  obtain ⟨a1, a2, b1, b2, k1, k2, r1, r2, c1, c2, g, l, i⟩ := hc
  unfold existenceChecks checkDestination checkListener
  rw [a1, b1, k1, r1, c1, g]

/-- C3. Disabled sections are not validated: two configurations that agree
everywhere except in the non-enable fields of sections disabled in both give
`validateOptions` the same outcome (the same fatal exit and message, the same
panic, or completion with the same package variables and output) and, on
completion, copies of the configuration that still agree in that sense. -/
theorem validateOptions_ignores_disabled_sections (h : Host) (g : Globals)
    (c1 c2 : tomlConfig) (hc : agreeOutsideDisabled c1 c2) :
    observe (validateOptions h c1 g) = observe (validateOptions h c2 g) ∧
    outcomeAgree (validateOptions h c1 g) (validateOptions h c2 g) := by
  have key : outcomeAgree (validateOptions h c1 g) (validateOptions h c2 g) := by
    unfold validateOptions
    rw [existenceChecks_agree hc]
    cases existenceChecks c2 with
    | exit st m => exact outcomeAgree_refl_exit _ _
    | nilDeref => simp [Outcome.bind, outcomeAgree]
    | ok u => exact sections_agree h ⟨hc, rfl, rfl, rfl, rfl⟩
  exact ⟨observe_eq_of_agree key, key⟩

/-- Witness for C3: a configuration with an empty disabled object-store section
and one with that section filled in end validation the same way. -/
theorem validateOptions_ignores_disabled_sections_witness :
    agreeOutsideDisabled sampleConfigA sampleConfigB ∧
    observe (validateOptions sampleHost sampleConfigA {}) =
      observe (validateOptions sampleHost sampleConfigB {}) :=
  ⟨by decide,
   (validateOptions_ignores_disabled_sections sampleHost {} sampleConfigA sampleConfigB
      (by decide)).1⟩

/-! ## Upload requests -/

/-- A URL without a port segment differs from the one with it. -/
theorem uri_without_port_ne (pre tok p : String) :
    pre ++ "/api/v1/" ++ tok ++ "/upload" ≠ pre ++ ":" ++ p ++ "/api/v1/" ++ tok ++ "/upload" := by
  intro h
  have hd := congrArg String.data h
  simp only [String.data_append, List.append_assoc] at hd
  have h2 := List.append_cancel_left hd
  simp at h2

/-- C6, as the code has it. The target URL built by `postBufferCloudshark` leaves
the port segment out exactly when the port is 80 or 443, whatever the scheme,
and carries `:` and the decimal port otherwise; it coincides with the
scheme-aware rule of the specification whenever the port is neither 80 nor 443
or is the implicit default of the scheme. -/
theorem postBufferCloudshark_uri (scheme host : String) (port : Int) (token : String)
    (buf : List (Fin 256)) (filename tags : String) :
    ((port = 80 ∨ port = 443) ↔
      (postBufferCloudshark scheme host port token buf filename tags).uri =
        scheme ++ "://" ++ host ++ "/api/v1/" ++ token ++ "/upload") ∧
    ((port ≠ 80 ∧ port ≠ 443) ↔
      (postBufferCloudshark scheme host port token buf filename tags).uri =
        scheme ++ "://" ++ host ++ ":" ++ itoa port ++ "/api/v1/" ++ token ++ "/upload") ∧
    (((port ≠ 80 ∧ port ≠ 443) ∨ (scheme = "http" ∧ port = 80) ∨
        (scheme = "https" ∧ port = 443)) ↔
      (postBufferCloudshark scheme host port token buf filename tags).uri =
        specTargetURL scheme host port token) := by
  have hne := uri_without_port_ne (scheme ++ "://" ++ host) token (itoa port)
  by_cases h80 : port = 80
  · subst h80
    by_cases hs : scheme = "http"
    · simp [postBufferCloudshark, specTargetURL, hs]
      exact uri_without_port_ne ("http" ++ "://" ++ host) token (itoa 80)
    · simp [postBufferCloudshark, specTargetURL, hs, hne]
  · by_cases h443 : port = 443
    · subst h443
      by_cases hs : scheme = "https"
      · simp [postBufferCloudshark, specTargetURL, hs]
        exact uri_without_port_ne ("https" ++ "://" ++ host) token (itoa 443)
      · simp [postBufferCloudshark, specTargetURL, hs, hne]
    · simp [postBufferCloudshark, specTargetURL, h80, h443, hne.symm]

/-- Counterexample for C6: with scheme http and port 443 the specification keeps
the port segment, the code drops it. -/
theorem postBufferCloudshark_uri_http_443 :
    (postBufferCloudshark "http" "review.internal" 443 "tok" [] "cap.pcap" "t1").uri =
      "http://review.internal/api/v1/tok/upload" ∧
    specTargetURL "http" "review.internal" 443 "tok" =
      "http://review.internal:443/api/v1/tok/upload" ∧
    (postBufferCloudshark "http" "review.internal" 443 "tok" [] "cap.pcap" "t1").uri ≠
      specTargetURL "http" "review.internal" 443 "tok" := by
  decide

/-- C9. When the session is created, `postS3` hands `PutObject` parameters with
key `/folder/filename`, the given bucket and ACL, the buffer as body, its byte
length as content length, the sniffed content type, the single metadata entry
`tags`, and server-side encryption `AES256` exactly when the encryption flag is
set (unset otherwise); when session creation fails no request is built. -/
theorem postS3_request_parameters (newSession : awsConfig → Bool)
    (detectContentType : List (Fin 256) → String) (config : awsConfig) (bucket : String)
    (buf : List (Fin 256)) (filename tags folder acl : String) (enc : Bool) :
    ∃ p : PutObjectInput,
      postS3 newSession detectContentType config bucket buf filename tags folder acl enc =
        (if newSession config then some p else none) ∧
      p.Key = some ("/" ++ folder ++ "/" ++ filename) ∧
      p.Bucket = some bucket ∧
      p.ACL = some acl ∧
      p.Metadata = [("tags", some tags)] ∧
      p.ContentLength = some (buf.length : Int) ∧
      p.Body = buf ∧
      p.ContentType = some (detectContentType buf) ∧
      (p.ServerSideEncryption = some "AES256" ↔ enc = true) ∧
      (p.ServerSideEncryption = none ↔ enc = false) := by
  refine ⟨postS3Params detectContentType bucket buf filename tags folder acl enc, ?_⟩
  cases enc <;> simp [postS3, postS3Params]

/-! ## The alias map -/

theorem find?_set {β : Type} (m : GoMap β) (k : String) (v : β) (k2 : String) :
    GoMap.find? (GoMap.set m k v) k2 = if k = k2 then some v else GoMap.find? m k2 := by
  induction m with
  | nil => simp [GoMap.set, GoMap.find?]
  | cons p rest ih =>
    obtain ⟨k0, v0⟩ := p
    unfold GoMap.set
    by_cases h0 : k0 = k
    · subst h0
      by_cases h1 : k0 = k2 <;> simp [GoMap.find?, h1]
    · by_cases h1 : k0 = k2
      · subst h1
        have : ¬ k = k0 := fun e => h0 e.symm
        simp [GoMap.find?, h0, this]
      · simp [GoMap.find?, h0, h1, ih]

/-- Lookup after appending one name per alias: the old slice followed by one
copy of the name for each occurrence of the key among the aliases. -/
theorem find?_addAliases (name : String) (al : List String) (m : GoMap (List String))
    (a : String) :
    GoMap.find? (addAliases name al m) a =
      if al.count a = 0 then GoMap.find? m a
      else some (GoMap.get m a ++ List.replicate (al.count a) name) := by
  induction al generalizing m with
  | nil => simp [addAliases]
  | cons av rest ih =>
    unfold addAliases
    rw [ih, find?_set]
    by_cases hav : av = a
    · subst hav
      simp only [GoMap.get, find?_set, if_true, List.count_cons_self, Option.getD_some]
      by_cases hc : List.count av rest = 0
      · simp [hc]
      · simp [hc, List.replicate_succ, Nat.add_comm, List.replicate_add]
    · have hne : (av == a) = false := by simpa using hav
      simp only [GoMap.get, find?_set, hav, if_false, List.count_cons, hne]
      simp

theorem bind_eq_ok {α β : Type} {x : Outcome α} {f : α → Outcome β} {b : β}
    (h : x.bind f = .ok b) : ∃ a, x = .ok a ∧ f a = .ok b := by
  cases x with
  | exit s1 m1 => simp [Outcome.bind] at h
  | nilDeref => simp [Outcome.bind] at h
  | ok a => exact ⟨a, rfl, h⟩

theorem mem_occurrencesOf (a n : String) (l : List interfaceDef) :
    n ∈ occurrencesOf a l ↔ ∃ d ∈ l, a ∈ d.Alias ∧ d.Name = n := by
  induction l with
  | nil => simp [occurrencesOf]
  | cons d rest ih =>
    simp only [occurrencesOf, List.mem_append, ih, List.mem_cons, exists_eq_or_imp,
      List.mem_replicate]
    constructor
    · rintro (⟨hc, rfl⟩ | hr)
      · exact Or.inl ⟨List.count_pos_iff.mp (Nat.pos_of_ne_zero hc), rfl⟩
      · exact Or.inr hr
    · rintro (⟨hm, rfl⟩ | hr)
      · exact Or.inl ⟨Nat.pos_iff_ne_zero.mp (List.count_pos_iff.mpr hm), rfl⟩
      · exact Or.inr hr

theorem occurrencesOf_eq_nil (a : String) (l : List interfaceDef) :
    occurrencesOf a l = [] ↔ ∀ d ∈ l, a ∉ d.Alias := by
  rw [List.eq_nil_iff_forall_not_mem]
  constructor
  · intro hn d hd ha
    exact hn d.Name ((mem_occurrencesOf a d.Name l).mpr ⟨d, hd, ha, rfl⟩)
  · intro hn n hm
    obtain ⟨d, hd, ha, -⟩ := (mem_occurrencesOf a n l).mp hm
    exact hn d hd ha

theorem occurrencesOf_eq_definersOf (a : String) (l : List interfaceDef)
    (hl : ∀ d ∈ l, d.Alias.Nodup) : occurrencesOf a l = definersOf a l := by
  induction l with
  | nil => rfl
  | cons d rest ih =>
    have hd : d.Alias.Nodup := hl d (List.mem_cons_self _ _)
    have hr := ih fun x hx => hl x (List.mem_cons_of_mem _ hx)
    unfold definersOf at hr ⊢
    by_cases ha : a ∈ d.Alias
    · have hc : d.Alias.count a = 1 := List.count_eq_one_of_mem hd ha
      simp [occurrencesOf, hc, ha, hr]
    · have hc : d.Alias.count a = 0 := List.count_eq_zero_of_not_mem ha
      simp [occurrencesOf, hc, ha, hr]

theorem s3Block_ok_frame {s t : VState} (h : s3Block s = .ok t) :
    t.almap = s.almap ∧ t.c.Ifmap = s.c.Ifmap := by
  unfold s3Block at h
  rw [s3DefaultACL_eq] at h
  split_ifs at h with h1 h2 h3
  · simp [logFatal] at h
  · simp [Outcome.bind] at h
  · simp only [bind_ok_eq, s3DefaultEncryption_eq] at h
    split_ifs at h with h4
    · simp [Outcome.bind] at h
    · simp only [bind_ok_eq, Outcome.ok.injEq] at h
      subst h; exact ⟨rfl, rfl⟩
  · simp only [Outcome.ok.injEq] at h
    subst h; exact ⟨rfl, rfl⟩

theorem sqsBlock_ok_frame {s t : VState} (h : sqsBlock s = .ok t) :
    t.almap = s.almap ∧ t.c.Ifmap = s.c.Ifmap := by
  unfold sqsBlock at h
  rw [sqsDefaultWait_eq] at h
  split_ifs at h with h1 h2 h3 h4
  · simp [logFatal] at h
  · simp [logFatal] at h
  · simp [Outcome.bind] at h
  · simp only [bind_ok_eq, sqsDefaultChunk_eq] at h
    split_ifs at h with h5 <;>
      (simp only [bind_ok_eq, Outcome.ok.injEq] at h; subst h; exact ⟨rfl, rfl⟩)
  · simp only [Outcome.ok.injEq] at h
    subst h; exact ⟨rfl, rfl⟩

theorem kafkaBlock_ok_frame {s t : VState} (h : kafkaBlock s = .ok t) : t = s := by
  unfold kafkaBlock at h
  split_ifs at h with h1 h2 h3
  · simp [logFatal] at h
  · simp [logFatal] at h
  · simpa [eq_comm] using h
  · simpa [eq_comm] using h

theorem redisBlock_ok_frame {s t : VState} (h : redisBlock s = .ok t) :
    t.almap = s.almap ∧ t.c.Ifmap = s.c.Ifmap := by
  unfold redisBlock at h
  split_ifs at h with h1 h2 h3 h4
  · simp [logFatal] at h
  · simp [logFatal] at h
  all_goals (simp only [Outcome.ok.injEq] at h; subst h; exact ⟨rfl, rfl⟩)

theorem csBlock_ok_frame {s t : VState} (h : csBlock s = .ok t) :
    t.almap = s.almap ∧ t.c.Ifmap = s.c.Ifmap := by
  unfold csBlock at h
  split_ifs at h with h1 h2 h3
  · simp [logFatal] at h
  · simp [logFatal] at h
  all_goals (simp only [Outcome.ok.injEq] at h; subst h; exact ⟨rfl, rfl⟩)

theorem genBlock_ok_frame {h : Host} {s t : VState} (hx : genBlock h s = .ok t) :
    t.almap = s.almap ∧ t.c.Ifmap = s.c.Ifmap := by
  unfold genBlock at hx
  simp only at hx
  split_ifs at hx with h1
  · simp [logFatal] at hx
  · simp only [Outcome.ok.injEq] at hx
    subst hx; exact ⟨rfl, rfl⟩

/-- The loop over the InterfaceDefs completes exactly when every name is valid;
zero aliases never stop it. -/
theorem ifLoop_completes_iff (h : Host) (l : List interfaceDef) (s : VState) :
    (∃ t, ifLoop h l s = .ok t) ↔ ∀ d ∈ l, validName h d := by
  induction l generalizing s with
  | nil => simp [ifLoop]
  | cons v rest ih =>
    unfold ifLoop
    simp only [List.mem_cons, forall_eq_or_imp, validName]
    split_ifs with h1 h2 h3
    · simp [logFatal, h1]
    · simp only [Option.isNone_iff_eq_none] at h2
      simp [logFatal, h2]
    · rw [ih]
      simp only [Option.isNone_iff_eq_none, ← ne_eq, Option.ne_none_iff_isSome] at h2
      simp [h1, h2, validName]
    · rw [ih]
      simp only [Option.isNone_iff_eq_none, ← ne_eq, Option.ne_none_iff_isSome] at h2
      simp [h1, h2, validName]

/-- On completion the loop has appended, for every alias, the names of the
InterfaceDefs listing it, in order and once per occurrence. -/
theorem ifLoop_ok_almap {h : Host} {l : List interfaceDef} {s t : VState}
    (hx : ifLoop h l s = .ok t) (a : String) :
    GoMap.find? t.almap a =
      if occurrencesOf a l = [] then GoMap.find? s.almap a
      else some (GoMap.get s.almap a ++ occurrencesOf a l) := by
  induction l generalizing s with
  | nil =>
    simp only [ifLoop, Outcome.ok.injEq] at hx
    subst hx; simp [occurrencesOf]
  | cons v rest ih =>
    have step : ∃ s1 : VState, ifLoop h rest s1 = .ok t ∧
        s1.almap = addAliases v.Name v.Alias s.almap := by
      unfold ifLoop at hx
      split_ifs at hx with h1 h2 h3
      · simp [logFatal] at hx
      · simp [logFatal] at hx
      · refine ⟨_, hx, ?_⟩
        have : v.Alias = [] := List.length_eq_zero.mp h3
        simp [this, addAliases]
      · exact ⟨_, hx, rfl⟩
    obtain ⟨s1, h1, hm⟩ := step
    rw [ih h1, hm]
    have hf := find?_addAliases v.Name v.Alias s.almap a
    simp only [GoMap.get, hf, occurrencesOf]
    by_cases hc : List.count a v.Alias = 0
    · simp [hc]
    · by_cases hr : occurrencesOf a rest = []
      · simp [hc, hr]
      · simp [hc, hr]

/-- The state in which `validateOptions` enters its loop over the
InterfaceDefs still has the alias map and the InterfaceDefs it was called
with, and the alias map it returns is the one the loop leaves. -/
theorem validateOptions_ok_loop {h : Host} {c : tomlConfig} {g : Globals} {st : VState}
    (hv : validateOptions h c g = .ok st) :
    ∃ s6 s7 : VState, s6.almap = g.almap ∧ s6.c.Ifmap = c.Ifmap ∧
      ifLoop h c.Ifmap s6 = .ok s7 ∧ st.almap = s7.almap := by
  unfold validateOptions at hv
  obtain ⟨u, -, r0⟩ := bind_eq_ok hv
  unfold sections at r0
  obtain ⟨s1, e1, r1⟩ := bind_eq_ok r0
  obtain ⟨s2, e2, r2⟩ := bind_eq_ok r1
  obtain ⟨s3, e3, r3⟩ := bind_eq_ok r2
  obtain ⟨s4, e4, r4⟩ := bind_eq_ok r3
  obtain ⟨s5, e5, r5⟩ := bind_eq_ok r4
  obtain ⟨s6, e6, r6⟩ := bind_eq_ok r5
  obtain ⟨s7, e7, r7⟩ := bind_eq_ok r6
  have f1 := s3Block_ok_frame e1
  have f2 := sqsBlock_ok_frame e2
  have f3 := kafkaBlock_ok_frame e3
  have f4 := redisBlock_ok_frame e4
  have f5 := csBlock_ok_frame e5
  have f6 := genBlock_ok_frame e6
  have hm : s6.almap = g.almap := by
    rw [f6.1, f5.1, f4.1, f3, f2.1, f1.1]
  have hi : s6.c.Ifmap = c.Ifmap := by
    rw [f6.2, f5.2, f4.2, f3, f2.2, f1.2]
  refine ⟨s6, s7, hm, hi, hi ▸ e7, ?_⟩
  simp only [logBlock, Outcome.ok.injEq] at r7
  subst r7; rfl

/-- C10, as the code has it. Starting from an empty alias map, if
`validateOptions` completes then every InterfaceDef has a non-empty name found
in the interface registry, and for every alias the alias map holds the names of
the InterfaceDefs in definition order, each repeated once per occurrence of the
alias in that InterfaceDef, with no entry for an alias that no InterfaceDef
lists. Hence every device name in the map is in the registry, an alias listed
by two InterfaceDefs keeps both names, and when no InterfaceDef repeats an
alias the entry is exactly the list of the names of the InterfaceDefs listing
it. The loop itself completes exactly when all names are valid, so an
InterfaceDef with zero aliases is not fatal. -/
theorem validateOptions_alias_map (h : Host) (c : tomlConfig) (aw : Option awsConfig)
    (st : VState)
    (hv : validateOptions h c { almap := [], awsconfig := aw } = .ok st) :
    (∀ d ∈ c.Ifmap, validName h d) ∧
    (∀ a, GoMap.find? st.almap a =
      if occurrencesOf a c.Ifmap = [] then none else some (occurrencesOf a c.Ifmap)) ∧
    (∀ a, GoMap.find? st.almap a = none ↔ ∀ d ∈ c.Ifmap, a ∉ d.Alias) ∧
    (∀ a n, n ∈ GoMap.get st.almap a → (GoMap.find? h.ifmap n).isSome = true) ∧
    (∀ a d1 d2, d1 ∈ c.Ifmap → d2 ∈ c.Ifmap → a ∈ d1.Alias → a ∈ d2.Alias →
      d1.Name ∈ GoMap.get st.almap a ∧ d2.Name ∈ GoMap.get st.almap a) ∧
    ((∀ d ∈ c.Ifmap, d.Alias.Nodup) →
      ∀ a, GoMap.get st.almap a = definersOf a c.Ifmap) ∧
    (∀ s, (∃ t, ifLoop h c.Ifmap s = .ok t) ↔ ∀ d ∈ c.Ifmap, validName h d) := by
  obtain ⟨s6, s7, hm, hi, hloop, hst⟩ := validateOptions_ok_loop hv
  have hvalid : ∀ d ∈ c.Ifmap, validName h d :=
    (ifLoop_completes_iff h c.Ifmap s6).mp ⟨s7, hloop⟩
  have hfind : ∀ a, GoMap.find? st.almap a =
      if occurrencesOf a c.Ifmap = [] then none else some (occurrencesOf a c.Ifmap) := by
    intro a
    rw [hst, ifLoop_ok_almap hloop a, hm]
    simp [GoMap.get, GoMap.find?]
  have hget : ∀ a, GoMap.get st.almap a = occurrencesOf a c.Ifmap := by
    intro a
    unfold GoMap.get
    rw [hfind a]
    by_cases ho : occurrencesOf a c.Ifmap = [] <;> simp [ho]
  refine ⟨hvalid, hfind, ?_, ?_, ?_, ?_, fun s => ifLoop_completes_iff h c.Ifmap s⟩
  · intro a
    rw [hfind a, ← occurrencesOf_eq_nil]
    by_cases ho : occurrencesOf a c.Ifmap = [] <;> simp [ho]
  · intro a n hn
    rw [hget a] at hn
    obtain ⟨d, hd, -, rfl⟩ := (mem_occurrencesOf a n c.Ifmap).mp hn
    exact (hvalid d hd).2
  · intro a d1 d2 h1 h2 a1 a2
    rw [hget a]
    exact ⟨(mem_occurrencesOf a _ _).mpr ⟨d1, h1, a1, rfl⟩,
      (mem_occurrencesOf a _ _).mpr ⟨d2, h2, a2, rfl⟩⟩
  · intro hnd a
    rw [hget a, occurrencesOf_eq_definersOf a c.Ifmap hnd]

/-- Witness for C10: on a host with `eth0` and `eth1`, a configuration whose
InterfaceDefs share the alias `lan` passes validation, and the theorem applies
to its result. -/
theorem validateOptions_alias_map_witness :
    ∃ st, validateOptions sampleHost sampleConfigAliases { almap := [], awsconfig := none } =
        .ok st ∧
      (∀ d ∈ sampleConfigAliases.Ifmap, validName sampleHost d) ∧
      GoMap.find? st.almap "wan" = some ["eth1"] := by
  have hv : validateOptions sampleHost sampleConfigAliases { almap := [], awsconfig := none } =
      .ok (VState.mk
        { sampleConfigAliases with
          R := { sampleConfigAliases.R with Port := 6379 }
          Gen := { Maxpackets := 10000, Snap := 512, Deftimeout := 60,
                   Maxtimeout := 3600000000000, Maxduration := 3600000000000,
                   Maxbytes := 100000000, Writelocal := true, Localdir := "/tmp/caps" }
          Log := { Priority := 85, Tag := "pcapdaemon" } }
        [("lan", ["eth0", "eth0", "eth1"]), ("wan", ["eth1"])] none
        ["No cloudshark settings"] ["No cloudshark settings"]) := by
    decide
  have ht := validateOptions_alias_map sampleHost sampleConfigAliases none _ hv
  exact ⟨_, hv, ht.1, by rw [ht.2.1]; decide⟩

/-- Counterexample for C10: `eth0` lists the alias `lan` twice, and the alias
map then holds `eth0` twice for `lan`, while the InterfaceDefs that list `lan`
are `eth0` and `eth1`, once each. -/
theorem validateOptions_alias_map_repeated_alias :
    ∃ st, validateOptions sampleHost sampleConfigAliases { almap := [], awsconfig := none } =
        .ok st ∧
      GoMap.find? st.almap "lan" = some ["eth0", "eth0", "eth1"] ∧
      definersOf "lan" sampleConfigAliases.Ifmap = ["eth0", "eth1"] ∧
      GoMap.find? st.almap "lan" ≠ some (definersOf "lan" sampleConfigAliases.Ifmap) := by
  refine ⟨VState.mk
        { sampleConfigAliases with
          R := { sampleConfigAliases.R with Port := 6379 }
          Gen := { Maxpackets := 10000, Snap := 512, Deftimeout := 60,
                   Maxtimeout := 3600000000000, Maxduration := 3600000000000,
                   Maxbytes := 100000000, Writelocal := true, Localdir := "/tmp/caps" }
          Log := { Priority := 85, Tag := "pcapdaemon" } }
        [("lan", ["eth0", "eth0", "eth1"]), ("wan", ["eth1"])] none
        ["No cloudshark settings"] ["No cloudshark settings"], ?_, ?_, ?_, ?_⟩ <;> decide

/-! ## Evaluations of the validator at concrete configurations -/

/-- C2 at a concrete input. With the object store enabled, a bucket present and
no ACL, and Kafka enabled without brokers, `validateOptions` (and so `main`)
ends in a nil-pointer panic at the ACL default and never logs the Kafka
message; with the object store enabled and no bucket it exits with status 1
and the bucket message and `main` starts no listener. -/
theorem validateOptions_missing_broker_after_nil_acl :
    validateOptions sampleHost configBucketNoACL {} = .nilDeref ∧
    validateOptions sampleHost configBucketNoACL {} ≠
      .exit 1 "You must supply at least 1 Kafka node" ∧
    main sampleHost configBucketNoACL {} = .nilDeref ∧
    validateOptions sampleHost configNoBucket {} =
      .exit 1 "You must supply a default bucket to use S3 " ∧
    main sampleHost configNoBucket {} =
      .exit 1 "You must supply a default bucket to use S3 " := by
  decide

/-- C4 at concrete inputs. With the object store enabled and a bucket present,
an absent ACL makes `validateOptions` panic at `*c.Aws.ACL = "private"`, and an
absent encryption flag makes it panic at `*c.Aws.Encryption = false`: neither
default is ever applied. -/
theorem validateOptions_nil_acl_panics :
    validateOptions sampleHost configNoACL {} = .nilDeref ∧
    s3DefaultACL configNoACL.Aws = .nilDeref ∧
    validateOptions sampleHost configNoEncryption {} = .nilDeref ∧
    s3DefaultEncryption configNoEncryption.Aws = .nilDeref := by
  decide

/-- C5 at concrete inputs. With wait-seconds 5 and chunk-size unset the
validator overwrites wait-seconds with 10 and leaves chunk-size unset, also in
the configuration `main` reads afterwards; with wait-seconds unset it panics;
with both set to 0 it keeps 0 for both. -/
theorem validateOptions_sqs_chunk_overwrites_wait :
    (validateOptions sampleHost (configSqs (some 5) none) {}).bind
        (fun s => .ok (s.c.AwsSqs.Waitseconds, s.c.AwsSqs.Chunksize)) =
      .ok (some 10, none) ∧
    (main sampleHost (configSqs (some 5) none) {}).bind
        (fun r => .ok (r.config.AwsSqs.Waitseconds, r.config.AwsSqs.Chunksize)) =
      .ok (some 10, none) ∧
    validateOptions sampleHost (configSqs none (some 10)) {} = .nilDeref ∧
    validateOptions sampleHost (configSqs none none) {} = .nilDeref ∧
    (validateOptions sampleHost (configSqs (some 0) (some 0)) {}).bind
        (fun s => .ok (s.c.AwsSqs.Waitseconds, s.c.AwsSqs.Chunksize)) =
      .ok (some 0, some 0) := by
  decide

/-- C7 at a concrete input. With Pub/Sub enabled, host and channel set and the
port unset, `validateOptions` sets port 6379 in its own copy of the
configuration only: the worker `main` starts afterwards is given port 0. -/
theorem main_starts_redis_with_unset_port :
    (validateOptions sampleHost sampleConfigA {}).bind (fun s => .ok s.c.R.Port) =
      .ok 6379 ∧
    (main sampleHost sampleConfigA {}).bind (fun r => .ok r.config.R.Port) = .ok 0 ∧
    (main sampleHost sampleConfigA {}).bind (fun r => .ok r.workers) =
      .ok [Worker.redis "redis.internal" 0 "capture" ""] := by
  decide

/-- C8 at a concrete input. With every General bound unset, the copy of the
configuration inside `validateOptions` ends with defaultTimeout 60 while
maxTimeout and maxDuration are `3600 * time.Second`, so defaultTimeout is not
`60 * time.Second`; and the configuration `main` reads after the call still
has all six bounds at 0. -/
theorem validateOptions_general_defaults_evaluated :
    (validateOptions sampleHost sampleConfigA {}).bind (fun s => .ok s.c.Gen) =
      .ok { Maxpackets := 10000, Snap := 512, Deftimeout := 60,
            Maxtimeout := 3600 * timeSecond, Maxduration := 3600 * timeSecond,
            Maxbytes := 100000000, Writelocal := true, Localdir := "/tmp/caps" } ∧
    (validateOptions sampleHost sampleConfigA {}).bind (fun s => .ok s.c.Gen.Deftimeout) ≠
      .ok (60 * timeSecond) ∧
    (main sampleHost sampleConfigA {}).bind (fun r => .ok r.config.Gen) =
      .ok { Maxpackets := 0, Snap := 0, Deftimeout := 0, Maxtimeout := 0,
            Maxduration := 0, Maxbytes := 0, Writelocal := true, Localdir := "/tmp/caps" } := by
  decide

/-! ## The callee's copy of the configuration on completion -/

theorem s3Block_ok {s t : VState} (h : s3Block s = .ok t) :
    t.c = s.c ∧
    (s.c.Aws.Upload = true →
      s.c.Aws.Bucket ≠ none ∧ s.c.Aws.ACL ≠ none ∧ s.c.Aws.Encryption ≠ none) := by
  unfold s3Block at h
  rw [s3DefaultACL_eq] at h
  split_ifs at h with h1 h2 h3
  · simp [logFatal] at h
  · simp [Outcome.bind] at h
  · simp only [bind_ok_eq, s3DefaultEncryption_eq] at h
    split_ifs at h with h4
    · simp [Outcome.bind] at h
    · simp only [bind_ok_eq, Outcome.ok.injEq] at h
      subst h
      exact ⟨rfl, fun _ => ⟨h2, h3, h4⟩⟩
  · simp only [Outcome.ok.injEq] at h
    subst h
    exact ⟨rfl, fun hu => absurd hu h1⟩

theorem sqsBlock_ok {s t : VState} (h : sqsBlock s = .ok t) :
    t.c = { s.c with AwsSqs := { s.c.AwsSqs with
      Waitseconds := if s.c.AwsSqs.Listen = true ∧ s.c.AwsSqs.Chunksize = none then some 10
                     else s.c.AwsSqs.Waitseconds } } ∧
    (s.c.AwsSqs.Listen = true →
      s.c.AwsSqs.Region ≠ none ∧ s.c.AwsSqs.URL ≠ none ∧ s.c.AwsSqs.Waitseconds ≠ none) := by
  unfold sqsBlock at h
  rw [sqsDefaultWait_eq] at h
  split_ifs at h with h1 h2 h3 h4
  · simp [logFatal] at h
  · simp [logFatal] at h
  · simp [Outcome.bind] at h
  · simp only [bind_ok_eq, sqsDefaultChunk_eq] at h
    split_ifs at h with h5
    · simp only [bind_ok_eq, Outcome.ok.injEq] at h
      subst h
      exact ⟨by simp only [if_pos (And.intro h1 h5)], fun _ => ⟨h2, h3, h4⟩⟩
    · simp only [bind_ok_eq, Outcome.ok.injEq] at h
      subst h
      exact ⟨by simp only [if_neg (fun hh : _ ∧ _ => h5 hh.2)], fun _ => ⟨h2, h3, h4⟩⟩
  · simp only [Outcome.ok.injEq] at h
    subst h
    exact ⟨by simp only [if_neg (fun hh : _ ∧ _ => h1 hh.1)], fun hu => absurd hu h1⟩

theorem kafkaBlock_ok {s t : VState} (h : kafkaBlock s = .ok t) :
    t = s ∧ (s.c.K.Listen = true → s.c.K.Server ≠ [] ∧ s.c.K.Topic ≠ "") := by
  refine ⟨kafkaBlock_ok_frame h, fun hu => ?_⟩
  unfold kafkaBlock at h
  split_ifs at h with h2 h3
  · simp [logFatal] at h
  · simp [logFatal] at h
  · refine ⟨fun e => h2 ?_, h3⟩
    simp [e]

theorem redisBlock_ok {s t : VState} (h : redisBlock s = .ok t) :
    t.c = { s.c with R := { s.c.R with
      Port := if s.c.R.Listen = true ∧ s.c.R.Port = 0 then 6379 else s.c.R.Port } } ∧
    (s.c.R.Listen = true → s.c.R.Host ≠ "" ∧ s.c.R.Channel ≠ "") := by
  unfold redisBlock at h
  split_ifs at h with h1 h2 h3 h4
  · simp [logFatal] at h
  · simp [logFatal] at h
  · simp only [Outcome.ok.injEq] at h
    subst h
    exact ⟨by simp only [if_pos (And.intro h1 h4)], fun _ => ⟨h2, h3⟩⟩
  · simp only [Outcome.ok.injEq] at h
    subst h
    exact ⟨by simp only [if_neg (fun hh : _ ∧ _ => h4 hh.2)], fun _ => ⟨h2, h3⟩⟩
  · simp only [Outcome.ok.injEq] at h
    subst h
    exact ⟨by simp only [if_neg (fun hh : _ ∧ _ => h1 hh.1)], fun hu => absurd hu h1⟩

theorem csBlock_ok {s t : VState} (h : csBlock s = .ok t) :
    t.c = { s.c with Cs := if s.c.Cs.Upload = true then csDefaults s.c.Cs else s.c.Cs } ∧
    (s.c.Cs.Upload = true → s.c.Cs.Host ≠ "" ∧ s.c.Cs.Token ≠ "") := by
  unfold csBlock at h
  split_ifs at h with h1 h2 h3
  · simp [logFatal] at h
  · simp [logFatal] at h
  · simp only [Outcome.ok.injEq] at h
    subst h
    exact ⟨by simp only [if_pos h1], fun _ => ⟨h2, h3⟩⟩
  · simp only [Outcome.ok.injEq] at h
    subst h
    exact ⟨by simp only [if_neg h1], fun hu => absurd hu h1⟩

theorem genBlock_ok {h : Host} {s t : VState} (hx : genBlock h s = .ok t) :
    t.c = { s.c with Gen := genDefaultsB (genDefaultsA s.c.Gen) } := by
  unfold genBlock at hx
  simp only at hx
  split_ifs at hx with h1
  · simp [logFatal] at hx
  · simp only [Outcome.ok.injEq] at hx
    subst hx; rfl

theorem ifLoop_ok_config {h : Host} {l : List interfaceDef} {s t : VState}
    (hx : ifLoop h l s = .ok t) : t.c = s.c := by
  induction l generalizing s with
  | nil =>
    simp only [ifLoop, Outcome.ok.injEq] at hx
    subst hx; rfl
  | cons v rest ih =>
    unfold ifLoop at hx
    split_ifs at hx with h1 h2 h3
    · simp [logFatal] at hx
    · simp [logFatal] at hx
    · have e := ih hx
      simpa using e
    · have e := ih hx
      simpa using e

/-- On completion, the copy of the configuration inside `validateOptions` is the
argument with these changes only: wait-seconds 10 when the queue-poll section is
enabled without chunk-size, Pub/Sub port 6379 when enabled with port 0, the
review-service scheme and port defaults when enabled, and the General and
syslog defaults. -/
theorem validateOptions_ok_local {h : Host} {c : tomlConfig} {g : Globals} {st : VState}
    (hv : validateOptions h c g = .ok st) :
    st.c =
      { Aws := c.Aws,
        AwsSqs := { c.AwsSqs with
          Waitseconds := if c.AwsSqs.Listen = true ∧ c.AwsSqs.Chunksize = none then some 10
                         else c.AwsSqs.Waitseconds },
        K := c.K,
        R := { c.R with Port := if c.R.Listen = true ∧ c.R.Port = 0 then 6379 else c.R.Port },
        Cs := if c.Cs.Upload = true then csDefaults c.Cs else c.Cs,
        Gen := genDefaultsB (genDefaultsA c.Gen),
        Log := logDefaults c.Log,
        Ifmap := c.Ifmap } := by
  unfold validateOptions at hv
  obtain ⟨u, -, r0⟩ := bind_eq_ok hv
  unfold sections at r0
  obtain ⟨s1, e1, r1⟩ := bind_eq_ok r0
  obtain ⟨s2, e2, r2⟩ := bind_eq_ok r1
  obtain ⟨s3, e3, r3⟩ := bind_eq_ok r2
  obtain ⟨s4, e4, r4⟩ := bind_eq_ok r3
  obtain ⟨s5, e5, r5⟩ := bind_eq_ok r4
  obtain ⟨s6, e6, r6⟩ := bind_eq_ok r5
  obtain ⟨s7, e7, r7⟩ := bind_eq_ok r6
  have f1 := (s3Block_ok e1).1
  have f2 := (sqsBlock_ok e2).1
  have f3 := (kafkaBlock_ok e3).1
  have f4 := (redisBlock_ok e4).1
  have f5 := (csBlock_ok e5).1
  have f6 := genBlock_ok e6
  have f7 := ifLoop_ok_config e7
  simp only [logBlock, Outcome.ok.injEq] at r7
  subst r7
  simp only [f7, f6, f5, f4, f3, f2, f1]

/-! ## Required fields of enabled sections -/

theorem s3Block_missing {s : VState} (hu : s.c.Aws.Upload = true)
    (hb : s.c.Aws.Bucket = none) :
    s3Block s = .exit 1 "You must supply a default bucket to use S3 " := by
  simp [s3Block, hu, hb, logFatal]

theorem s3Block_passes {s : VState} (hb : ¬ (s.c.Aws.Upload = true ∧ s.c.Aws.Bucket = none))
    (hp : s.c.Aws.Upload = true → s.c.Aws.ACL ≠ none ∧ s.c.Aws.Encryption ≠ none) :
    ∃ t, s3Block s = .ok t := by
  unfold s3Block
  by_cases hu : s.c.Aws.Upload = true
  · have h1 : ¬ s.c.Aws.Bucket = none := fun e => hb ⟨hu, e⟩
    obtain ⟨h2, h3⟩ := hp hu
    simp only [hu, if_true, h1, if_false, s3DefaultACL_eq, h2, bind_ok_eq,
      s3DefaultEncryption_eq, h3]
    exact ⟨_, rfl⟩
  · simp only [hu]
    exact ⟨_, rfl⟩

theorem sqsBlock_missing_region {s : VState} (hu : s.c.AwsSqs.Listen = true)
    (hr : s.c.AwsSqs.Region = none) :
    sqsBlock s = .exit 1 "You must supply a Region to use SQS " := by
  simp [sqsBlock, hu, hr, logFatal]

theorem sqsBlock_missing_url {s : VState}
    (hr : ¬ (s.c.AwsSqs.Listen = true ∧ s.c.AwsSqs.Region = none))
    (hu : s.c.AwsSqs.Listen = true) (hq : s.c.AwsSqs.URL = none) :
    sqsBlock s = .exit 1 "You must supply a Queue URL to use SQS " := by
  have h1 : ¬ s.c.AwsSqs.Region = none := fun e => hr ⟨hu, e⟩
  simp [sqsBlock, hu, h1, hq, logFatal]

theorem sqsBlock_passes {s : VState}
    (hr : ¬ (s.c.AwsSqs.Listen = true ∧ s.c.AwsSqs.Region = none))
    (hq : ¬ (s.c.AwsSqs.Listen = true ∧ s.c.AwsSqs.URL = none))
    (hp : s.c.AwsSqs.Listen = true → s.c.AwsSqs.Waitseconds ≠ none) :
    ∃ t, sqsBlock s = .ok t := by
  unfold sqsBlock
  by_cases hu : s.c.AwsSqs.Listen = true
  · have h1 : ¬ s.c.AwsSqs.Region = none := fun e => hr ⟨hu, e⟩
    have h2 : ¬ s.c.AwsSqs.URL = none := fun e => hq ⟨hu, e⟩
    have h3 := hp hu
    simp only [hu, if_true, h1, h2, if_false, sqsDefaultWait_eq, h3, bind_ok_eq,
      sqsDefaultChunk_eq]
    split_ifs <;> exact ⟨_, rfl⟩
  · simp only [hu]
    exact ⟨_, rfl⟩

theorem kafkaBlock_missing_server {s : VState} (hu : s.c.K.Listen = true)
    (hr : s.c.K.Server = []) :
    kafkaBlock s = .exit 1 "You must supply at least 1 Kafka node" := by
  simp [kafkaBlock, hu, hr, logFatal]

theorem kafkaBlock_missing_topic {s : VState}
    (hr : ¬ (s.c.K.Listen = true ∧ s.c.K.Server = []))
    (hu : s.c.K.Listen = true) (hq : s.c.K.Topic = "") :
    kafkaBlock s = .exit 1 "You must supply a Kafka topic to subscribe to" := by
  have h1 : ¬ s.c.K.Server = [] := fun e => hr ⟨hu, e⟩
  have h2 : ¬ s.c.K.Server.length < 1 := by
    intro hlt
    exact h1 (List.length_eq_zero.mp (by omega))
  simp only [kafkaBlock, hu, if_true, h2, if_false, hq, logFatal]

theorem kafkaBlock_passes {s : VState}
    (hr : ¬ (s.c.K.Listen = true ∧ s.c.K.Server = []))
    (hq : ¬ (s.c.K.Listen = true ∧ s.c.K.Topic = "")) :
    kafkaBlock s = .ok s := by
  unfold kafkaBlock
  by_cases hu : s.c.K.Listen = true
  · have h1 : ¬ s.c.K.Server = [] := fun e => hr ⟨hu, e⟩
    have h2 : ¬ s.c.K.Server.length < 1 := by
      intro hlt
      exact h1 (List.length_eq_zero.mp (by omega))
    have h3 : ¬ s.c.K.Topic = "" := fun e => hq ⟨hu, e⟩
    simp only [hu, if_true, h2, if_false, h3]
  · simp only [hu, Bool.false_eq_true, if_false]

theorem redisBlock_missing_host {s : VState} (hu : s.c.R.Listen = true)
    (hr : s.c.R.Host = "") : redisBlock s = .exit 1 "You must supply a redis host" := by
  simp [redisBlock, hu, hr, logFatal]

theorem redisBlock_missing_channel {s : VState}
    (hr : ¬ (s.c.R.Listen = true ∧ s.c.R.Host = ""))
    (hu : s.c.R.Listen = true) (hq : s.c.R.Channel = "") :
    redisBlock s = .exit 1 "You must supply a redis channel to subscribe to" := by
  have h1 : ¬ s.c.R.Host = "" := fun e => hr ⟨hu, e⟩
  simp only [redisBlock, hu, if_true, h1, if_false, hq, logFatal]

theorem redisBlock_passes {s : VState}
    (hr : ¬ (s.c.R.Listen = true ∧ s.c.R.Host = ""))
    (hq : ¬ (s.c.R.Listen = true ∧ s.c.R.Channel = "")) :
    ∃ t, redisBlock s = .ok t := by
  unfold redisBlock
  by_cases hu : s.c.R.Listen = true
  · have h1 : ¬ s.c.R.Host = "" := fun e => hr ⟨hu, e⟩
    have h3 : ¬ s.c.R.Channel = "" := fun e => hq ⟨hu, e⟩
    simp only [hu, if_true, h1, if_false, h3]
    split_ifs <;> exact ⟨_, rfl⟩
  · simp only [hu]
    exact ⟨_, rfl⟩

theorem csBlock_missing_host {s : VState} (hu : s.c.Cs.Upload = true)
    (hr : s.c.Cs.Host = "") :
    csBlock s = .exit 1 "If using Cloudshark, you must supply a host" := by
  simp [csBlock, hu, hr, logFatal]

theorem csBlock_missing_token {s : VState}
    (hr : ¬ (s.c.Cs.Upload = true ∧ s.c.Cs.Host = ""))
    (hu : s.c.Cs.Upload = true) (hq : s.c.Cs.Token = "") :
    csBlock s = .exit 1 "If using Cloudshark, you must supply an API token" := by
  have h1 : ¬ s.c.Cs.Host = "" := fun e => hr ⟨hu, e⟩
  simp only [csBlock, hu, if_true, h1, if_false, hq, logFatal]

/-- With the optional pointer fields of enabled sections present, the section
blocks end the process with the message of the first required field that is
missing from an enabled section. -/
theorem sections_first_missing_field (h : Host) (s : VState) (msg : String)
    (hp : optionalPointersPresent s.c) (hm : firstMissingField s.c = some msg) :
    sections h s = .exit 1 msg := by
  unfold firstMissingField at hm
  unfold sections
  obtain ⟨hp1, hp2⟩ := hp
  by_cases c1 : s.c.Aws.Upload = true ∧ s.c.Aws.Bucket = none
  · rw [if_pos c1, Option.some.injEq] at hm
    rw [s3Block_missing c1.1 c1.2, ← hm]; rfl
  rw [if_neg c1] at hm
  obtain ⟨t1, e1⟩ := s3Block_passes c1 hp1
  have f1 := (s3Block_ok e1).1
  rw [e1, bind_ok_eq]
  rw [← f1] at hm hp2
  by_cases c2 : t1.c.AwsSqs.Listen = true ∧ t1.c.AwsSqs.Region = none
  · rw [if_pos c2, Option.some.injEq] at hm
    rw [sqsBlock_missing_region c2.1 c2.2, ← hm]; rfl
  rw [if_neg c2] at hm
  by_cases c3 : t1.c.AwsSqs.Listen = true ∧ t1.c.AwsSqs.URL = none
  · rw [if_pos c3, Option.some.injEq] at hm
    rw [sqsBlock_missing_url c2 c3.1 c3.2, ← hm]; rfl
  rw [if_neg c3] at hm
  obtain ⟨t2, e2⟩ := sqsBlock_passes c2 c3 hp2
  have f2 := (sqsBlock_ok e2).1
  rw [e2, bind_ok_eq]
  have k2 : t2.c.K = t1.c.K := by rw [f2]
  have r2 : t2.c.R = t1.c.R := by rw [f2]
  have cs2 : t2.c.Cs = t1.c.Cs := by rw [f2]
  rw [← k2, ← r2, ← cs2] at hm
  by_cases c4 : t2.c.K.Listen = true ∧ t2.c.K.Server = []
  · rw [if_pos c4, Option.some.injEq] at hm
    rw [kafkaBlock_missing_server c4.1 c4.2, ← hm]; rfl
  rw [if_neg c4] at hm
  by_cases c5 : t2.c.K.Listen = true ∧ t2.c.K.Topic = ""
  · rw [if_pos c5, Option.some.injEq] at hm
    rw [kafkaBlock_missing_topic c4 c5.1 c5.2, ← hm]; rfl
  rw [if_neg c5] at hm
  rw [kafkaBlock_passes c4 c5, bind_ok_eq]
  by_cases c6 : t2.c.R.Listen = true ∧ t2.c.R.Host = ""
  · rw [if_pos c6, Option.some.injEq] at hm
    rw [redisBlock_missing_host c6.1 c6.2, ← hm]; rfl
  rw [if_neg c6] at hm
  by_cases c7 : t2.c.R.Listen = true ∧ t2.c.R.Channel = ""
  · rw [if_pos c7, Option.some.injEq] at hm
    rw [redisBlock_missing_channel c6 c7.1 c7.2, ← hm]; rfl
  rw [if_neg c7] at hm
  obtain ⟨t4, e4⟩ := redisBlock_passes c6 c7
  have f4 := (redisBlock_ok e4).1
  rw [e4, bind_ok_eq]
  have cs4 : t4.c.Cs = t2.c.Cs := by rw [f4]
  rw [← cs4] at hm
  by_cases c8 : t4.c.Cs.Upload = true ∧ t4.c.Cs.Host = ""
  · rw [if_pos c8, Option.some.injEq] at hm
    rw [csBlock_missing_host c8.1 c8.2, ← hm]; rfl
  rw [if_neg c8] at hm
  by_cases c9 : t4.c.Cs.Upload = true ∧ t4.c.Cs.Token = ""
  · rw [if_pos c9, Option.some.injEq] at hm
    rw [csBlock_missing_token c8 c9.1 c9.2, ← hm]; rfl
  rw [if_neg c9] at hm
  exact absurd hm (by simp)

/-- Scope of the required-field checks. For every configuration that passes the existence
checks and whose enabled object-store and queue-poll sections have their
optional pointer fields present, a required field missing from an enabled
section makes `validateOptions` exit with status 1 and the message of the first
such field, and `main` ends the same way without starting a listener. -/
theorem validateOptions_first_missing_field (h : Host) (c : tomlConfig) (g : Globals)
    (msg : String) (hd : ¬ noDestination c) (hl : ¬ noListener c)
    (hp : optionalPointersPresent c) (hm : firstMissingField c = some msg) :
    validateOptions h c g = .exit 1 msg ∧ main h c g = .exit 1 msg := by
  have hex : existenceChecks c = .ok () := by
    revert hd hl
    unfold noDestination noListener existenceChecks checkDestination checkListener
    cases c.Aws.Upload <;> cases c.Cs.Upload <;> cases c.Gen.Writelocal <;>
      cases c.AwsSqs.Listen <;> cases c.R.Listen <;> cases c.K.Listen <;>
      simp [Outcome.bind]
  have hv : validateOptions h c g = .exit 1 msg := by
    unfold validateOptions
    rw [hex, bind_ok_eq]
    exact sections_first_missing_field h _ msg hp hm
  refine ⟨hv, ?_⟩
  unfold main
  rw [hv]; rfl

/-- The required-field result applied: Kafka enabled with a broker and no topic,
object store complete. -/
theorem validateOptions_first_missing_field_example :
    validateOptions sampleHost configKafkaNoTopic {} =
      .exit 1 "You must supply a Kafka topic to subscribe to" ∧
    main sampleHost configKafkaNoTopic {} =
      .exit 1 "You must supply a Kafka topic to subscribe to" :=
  validateOptions_first_missing_field sampleHost configKafkaNoTopic {} _
    (by decide) (by decide) (by decide) (by decide)

/-- Scope of the nil-pointer panic. For every configuration that passes the
existence checks with the object store enabled and a bucket present, an absent
ACL or an absent encryption flag ends `validateOptions` in a nil-pointer
panic. -/
theorem validateOptions_s3_nil_pointer (h : Host) (c : tomlConfig) (g : Globals)
    (hd : ¬ noDestination c) (hl : ¬ noListener c) (hu : c.Aws.Upload = true)
    (hb : c.Aws.Bucket ≠ none) (hn : c.Aws.ACL = none ∨ c.Aws.Encryption = none) :
    validateOptions h c g = .nilDeref := by
  have hex : existenceChecks c = .ok () := by
    revert hd hl
    unfold noDestination noListener existenceChecks checkDestination checkListener
    cases c.Aws.Upload <;> cases c.Cs.Upload <;> cases c.Gen.Writelocal <;>
      cases c.AwsSqs.Listen <;> cases c.R.Listen <;> cases c.K.Listen <;>
      simp [Outcome.bind]
  unfold validateOptions
  rw [hex, bind_ok_eq]
  unfold sections s3Block
  simp only [hu, if_true, hb, if_false, s3DefaultACL_eq, s3DefaultEncryption_eq]
  by_cases ha : c.Aws.ACL = none
  · simp only [ha, if_true, bind_nilDeref_eq]
  · have he : c.Aws.Encryption = none := hn.resolve_left ha
    simp only [ha, if_false, bind_ok_eq, he, if_true, bind_nilDeref_eq]

/-- Plain fields after validation. Whenever `main` gets past validation, the
configuration it reads afterwards has the Pub/Sub, Kafka, review-service,
General and syslog sections exactly as before the call, and the listeners are
started from them. -/
theorem main_ok_plain_fields (h : Host) (config : tomlConfig) (g : Globals) (r : Started)
    (hr : main h config g = .ok r) :
    r.config.R = config.R ∧ r.config.K = config.K ∧ r.config.Cs = config.Cs ∧
    r.config.Gen = config.Gen ∧ r.config.Log = config.Log ∧
    r.workers = startListeners r.config ∧
    (config.R.Listen = true →
      Worker.redis config.R.Host config.R.Port config.R.Channel config.R.Auth ∈ r.workers) := by
  unfold main at hr
  obtain ⟨s, -, e⟩ := bind_eq_ok hr
  simp only [Outcome.ok.injEq] at e
  subst e
  refine ⟨rfl, rfl, rfl, rfl, rfl, rfl, fun hl => ?_⟩
  simp [startListeners, sharePointees, hl]

/-- General bounds in the copy. On completion the General section of the copy
inside `validateOptions` has each bound at its configured value when non-zero
and otherwise at the constant the code assigns: 10000, 512, 60,
`3600 * time.Second`, `3600 * time.Second`, 100000000. -/
theorem validateOptions_ok_general (h : Host) (c : tomlConfig) (g : Globals) (st : VState)
    (hv : validateOptions h c g = .ok st) :
    st.c.Gen.Maxpackets = (if c.Gen.Maxpackets = 0 then 10000 else c.Gen.Maxpackets) ∧
    st.c.Gen.Snap = (if c.Gen.Snap = 0 then 512 else c.Gen.Snap) ∧
    st.c.Gen.Deftimeout = (if c.Gen.Deftimeout = 0 then 60 else c.Gen.Deftimeout) ∧
    st.c.Gen.Maxtimeout =
      (if c.Gen.Maxtimeout = 0 then 3600 * timeSecond else c.Gen.Maxtimeout) ∧
    st.c.Gen.Maxduration =
      (if c.Gen.Maxduration = 0 then 3600 * timeSecond else c.Gen.Maxduration) ∧
    st.c.Gen.Maxbytes = (if c.Gen.Maxbytes = 0 then 100000000 else c.Gen.Maxbytes) := by
  rw [validateOptions_ok_local hv]
  show (genDefaultsB (genDefaultsA c.Gen)).Maxpackets = _ ∧
    (genDefaultsB (genDefaultsA c.Gen)).Snap = _ ∧
    (genDefaultsB (genDefaultsA c.Gen)).Deftimeout = _ ∧
    (genDefaultsB (genDefaultsA c.Gen)).Maxtimeout = _ ∧
    (genDefaultsB (genDefaultsA c.Gen)).Maxduration = _ ∧
    (genDefaultsB (genDefaultsA c.Gen)).Maxbytes = _
  have hA : genDefaultsA c.Gen =
      { c.Gen with
        Maxpackets := if c.Gen.Maxpackets = 0 then 10000 else c.Gen.Maxpackets
        Snap := if c.Gen.Snap = 0 then 512 else c.Gen.Snap } := by
    unfold genDefaultsA
    by_cases h1 : c.Gen.Maxpackets = 0 <;> by_cases h2 : c.Gen.Snap = 0 <;> simp [h1, h2]
  have hB : ∀ g : generalSection, genDefaultsB g =
      { g with
        Deftimeout := if g.Deftimeout = 0 then 60 else g.Deftimeout
        Maxtimeout := if g.Maxtimeout = 0 then 3600 * timeSecond else g.Maxtimeout
        Maxduration := if g.Maxduration = 0 then 3600 * timeSecond else g.Maxduration
        Maxbytes := if g.Maxbytes = 0 then 100000000 else g.Maxbytes } := by
    intro g
    unfold genDefaultsB
    by_cases h1 : g.Deftimeout = 0 <;> by_cases h2 : g.Maxtimeout = 0 <;>
      by_cases h3 : g.Maxduration = 0 <;> by_cases h4 : g.Maxbytes = 0 <;>
      simp [h1, h2, h3, h4]
  rw [hB, hA]
  exact ⟨rfl, rfl, rfl, rfl, rfl, rfl⟩

end Pcapdaemon
